import Mathlib

/-!
# Verification of the jenkins-dashboard normalization and refresh engine

Shallow embedding of the decision logic of `jenkins_dashboard_core_docker.py`
(record normalization: `_get_job_name_from_url`, `_get_build_info`,
`_get_completed_build_info`, `_get_queue_info`; snapshot refresh:
`refresh_data`, `_refresh_data_thread`) and of `jenkins_connector.py`
(fetcher methods `get_build_queue`, `get_running_builds`, `get_latest_builds`,
`list_jobs`).

Python strings are modelled as Lean `String`, with character-level helpers
(`strContains`, `strStartsWith`, `pyStrip`, ...) mirroring the Python string
methods used by the source.  Python integers are `Int`.  `int(x / y)` on
Python floats is modelled as exact truncated integer division (`Int.tdiv`):
for the magnitudes involved (millisecond durations) the binary float and the
exact rational agree on every input exercised here.  The wall clock reads
`int(time.time() * 1000)` and the formatted `datetime` strings are modelled
as explicit parameters (`now : Int`, `nowStr : String`, `fmtTime`), since
they are environment inputs.

Two models of `_get_build_info` are built:

* a *dynamic* model (`getBuildInfoDyn`) over a JSON-like value type `PyVal`,
  which mirrors Python's duck-typed dictionary access including the
  `TypeError` / `AttributeError` / `KeyError` raises that wrongly-typed field
  values cause (`Except String` is the raise monad);
* a *typed* model (`getBuildInfoT`) over a record `Build` whose fields carry
  the documented upstream types, each optional.

The bridge theorem `getBuildInfoDyn_encode` proves that on every record whose
present fields are well-typed (i.e. every `encodeBuild b`) the dynamic model
raises nothing and agrees with the typed model.
-/

namespace JD

/-! ## Python-style string primitives (character-list based) -/

/-- Whitespace as recognised by Python's `str.strip()` / `str.isspace()`
(ASCII subset; the source only ever meets ASCII whitespace). -/
def isPySpace (c : Char) : Bool :=
  c == ' ' || c == '\t' || c == '\n' || c == '\r' || c == '\x0b' || c == '\x0c'

/-- `needle in hay` for Python strings (contiguous substring test). -/
def listIsInfix (needle hay : List Char) : Bool :=
  match hay with
  | [] => needle.isEmpty
  | _ :: tl => needle.isPrefixOf hay || listIsInfix needle tl

/-- Python `needle in hay` on strings. -/
def strContains (hay needle : String) : Bool :=
  listIsInfix needle.toList hay.toList

/-- Python `s.startswith(pre)`. -/
def strStartsWith (s pre : String) : Bool :=
  pre.toList.isPrefixOf s.toList

/-- Python `s.endswith(post)` for a single-character suffix test. -/
def strEndsWithChar (s : String) (c : Char) : Bool :=
  s.toList.getLast? == some c

/-- Strip the given character class from both ends (Python `str.strip`). -/
def stripWhile (p : Char → Bool) (s : String) : String :=
  String.mk (((s.toList.dropWhile p).reverse.dropWhile p).reverse)

/-- Python `s.strip()` (whitespace). -/
def pyStrip (s : String) : String := stripWhile isPySpace s

/-- Python `s.strip(':')`. -/
def pyStripColon (s : String) : String := stripWhile (· == ':') s

/-- Python `s.lower()` (ASCII case fold, which is all the source needs). -/
def pyLower (s : String) : String := String.mk (s.toList.map Char.toLower)

/-- Python `s.isspace()`: non-empty and all whitespace. -/
def pyIsspace (s : String) : Bool :=
  !s.toList.isEmpty && s.toList.all isPySpace

/-- Python `s[n:]` (drop the first `n` characters). -/
def strDropChars (s : String) (n : Nat) : String := String.mk (s.toList.drop n)

/-- Python `len(s)` (in characters). -/
def strLen (s : String) : Nat := s.toList.length

/-- Python `s.split(sep)` for a non-empty separator, on character lists:
non-overlapping matches scanned left to right, empty pieces kept.  The fuel
argument (initially the list length, consumed one character per step) only
makes the recursion structural; the `0` case is unreachable. -/
def pySplitAux (sep : List Char) : Nat → List Char → List (List Char)
  | _, [] => [[]]
  | 0, cs => [cs]
  | fuel + 1, c :: rest =>
    if !sep.isEmpty && sep.isPrefixOf (c :: rest) then
      [] :: pySplitAux sep fuel (rest.drop (sep.length - 1))
    else
      match pySplitAux sep fuel rest with
      | r :: rs => (c :: r) :: rs
      | [] => [[c]]

def pySplitChars (sep cs : List Char) : List (List Char) :=
  pySplitAux sep cs.length cs

/-- Python `s.split(sep)` (all occurrences, empties kept). -/
def pySplit (s sep : String) : List String :=
  (pySplitChars sep.toList s.toList).map String.mk

/-- Python `sep.join(xs)`. -/
def pyJoin (sep : String) : List String → String
  | [] => ""
  | [x] => x
  | x :: xs => x ++ sep ++ pyJoin sep xs

/-- `int((a / b) * 100)` and friends on Python floats, modelled as exact
truncated (toward-zero) integer division. -/
def pyTruncDiv (a b : Int) : Int := Int.tdiv a b

/-! ## `_get_job_name_from_url` (jenkins_dashboard_core_docker.py lines 57-80,
identical in jenkins_dashboard_core.py lines 53-76) -/

/-- The `for i, part in enumerate(job_parts): if part == 'job' and i + 1 <
len(job_parts): return job_parts[i + 1]` loop: the segment immediately after
the *first* `"job"` segment that has a successor (a final `"job"` segment
fails the `i + 1 < len` guard and the scan continues past it). -/
def firstAfterJob : List String → Option String
  | [] => none
  | [_] => none
  | p :: next :: rest =>
    if p == "job" then some next else firstAfterJob (next :: rest)

/-- `_get_job_name_from_url(url)`. -/
def getJobNameFromUrl (url : String) : String :=
  if url == "" then "Unknown"
  else
    let url := if strEndsWithChar url '/' then String.mk url.toList.dropLast else url
    let job_parts := pySplit url "/"
    match firstAfterJob job_parts with
    | some name => name
    | none => job_parts.getLastD ""

/-! ## The branch regex `re.search(r'branch[:\s]+([^\s\]]+)', s, re.IGNORECASE)`
(line 143).  `re.search` tries each start position left to right; at a given
position the pattern needs the literal `branch` (case-insensitive), then a
greedy non-empty run of `[:\s]`, then a non-empty capture of `[^\s\]]`.
Greedy backtracking: if the character after the separator run cannot start
the capture (it is `]` or the end of the string, by maximality of the run),
the capture is taken from the last `:` inside the separator run instead,
provided at least one separator character remains before it; the characters
after that last colon inside the run are spaces, so the capture is then the
single string `":"`. -/

def sepClass (c : Char) : Bool := c == ':' || isPySpace c

def capClass (c : Char) : Bool := !isPySpace c && c != ']'

/-- Case-insensitive test for the literal `branch` at the head. -/
def startsWithBranchCI : List Char → Bool
  | b :: r :: a :: n :: c :: h :: _ =>
    b.toLower == 'b' && r.toLower == 'r' && a.toLower == 'a' &&
    n.toLower == 'n' && c.toLower == 'c' && h.toLower == 'h'
  | _ => false

/-- Attempt the whole pattern at this start position. -/
def regexMatchAt (cs : List Char) : Option String :=
  if startsWithBranchCI cs then
    let rest := cs.drop 6
    let sep := rest.takeWhile sepClass
    let rest2 := rest.drop sep.length
    if sep.isEmpty then none
    else
      match rest2 with
      | c :: _ =>
        if capClass c then some (String.mk (rest2.takeWhile capClass))
        else if (sep.drop 1).contains ':' then some ":" else none
      | [] => if (sep.drop 1).contains ':' then some ":" else none
  else none

/-- `re.search`: leftmost start position at which the pattern matches. -/
def regexSearchBranch : List Char → Option String
  | [] => none
  | c :: rest =>
    match regexMatchAt (c :: rest) with
    | some g => some g
    | none => regexSearchBranch rest

/-! ## Dynamic (duck-typed) values

`PyVal` models the JSON-like values the upstream server returns: `None`,
booleans, integers, strings, lists and string-keyed dicts.  `Except String`
is the exception monad; an `.error` is a Python raise (`TypeError`,
`AttributeError`, `KeyError`), carrying the exception's kind. -/

inductive PyVal where
  | none
  | bool (b : Bool)
  | int (n : Int)
  | str (s : String)
  | list (xs : List PyVal)
  | dict (kvs : List (String × PyVal))

/-- Key lookup in a dict's entry list (Python dict keys are unique, so the
first hit is the value). -/
def pyLookup (kvs : List (String × PyVal)) (k : String) : Option PyVal :=
  (kvs.find? (fun kv => kv.1 == k)).map (·.2)

/-- Python truthiness (`bool(v)`), total. -/
def pyTruthy : PyVal → Bool
  | .none => false
  | .bool b => b
  | .int n => n != 0
  | .str s => s != ""
  | .list xs => !xs.isEmpty
  | .dict kvs => !kvs.isEmpty

/-- Python `k in v` for a string `k`: key test on dicts, substring test on
strings, membership test on lists (a string compares equal only to an equal
string); raises `TypeError` on non-containers. -/
def pyIn (k : String) : PyVal → Except String Bool
  | .dict kvs => .ok (kvs.any (fun kv => kv.1 == k))
  | .str s => .ok (strContains s k)
  | .list xs => .ok (xs.any (fun v => match v with | .str s => s == k | _ => false))
  | _ => .error "TypeError: argument of type is not iterable"

/-- Python `v[k]` for a string key: dict lookup (KeyError when missing);
anything else raises `TypeError`. -/
def pyGetItem (v : PyVal) (k : String) : Except String PyVal :=
  match v with
  | .dict kvs =>
    match pyLookup kvs k with
    | some x => .ok x
    | Option.none => .error "KeyError"
  | _ => .error "TypeError: value is not subscriptable by a string"

/-- Python `v.get(k, dflt)`: only dicts have `.get`; anything else raises
`AttributeError`. -/
def pyDictGet (v : PyVal) (k : String) (dflt : PyVal) : Except String PyVal :=
  match v with
  | .dict kvs => .ok ((pyLookup kvs k).getD dflt)
  | _ => .error "AttributeError: object has no attribute get"

/-- Python `for x in v`: the element sequence of an iterable — list elements,
a string's characters (as one-character strings), a dict's keys; raises
`TypeError` otherwise. -/
def pyIter : PyVal → Except String (List PyVal)
  | .list xs => .ok xs
  | .str s => .ok (s.toList.map (fun c => .str (String.mk [c])))
  | .dict kvs => .ok (kvs.map (fun kv => .str kv.1))
  | _ => .error "TypeError: object is not iterable"

/-- Python `v > 0`: defined for ints and bools, `TypeError` otherwise. -/
def pyGtZero : PyVal → Except String Bool
  | .int n => .ok (n > 0)
  | .bool b => .ok b
  | _ => .error "TypeError: not supported between instances of str and int"

/-- An operand of Python integer arithmetic (`-`, `/`): ints and bools
coerce, everything else raises `TypeError`. -/
def pyToInt : PyVal → Except String Int
  | .int n => .ok n
  | .bool b => .ok (if b then 1 else 0)
  | _ => .error "TypeError: unsupported operand type"

/-- Python `str(v)` as used by the source's f-strings.  The containers never
reach an f-string in any statement proved below, so their rendering is
abbreviated. -/
def pyStrOf : PyVal → String
  | .none => "None"
  | .bool true => "True"
  | .bool false => "False"
  | .int n => toString n
  | .str s => s
  | .list _ => "[...]"
  | .dict _ => "\x7b...\x7d"

/-! ## Dynamic model of `_get_build_info`
(jenkins_dashboard_core_docker.py lines 82-218)

The build record itself is a dict (its entry list); `now` models
`int(time.time() * 1000)` — the source reads the clock twice (lines 184 and
190) but within the same millisecond in practice, so one parameter stands
for both reads. -/

/-- `_get_job_name_from_url(u)` on a dynamic argument: a falsy argument
returns `"Unknown"` (line 64) before any string method is touched; a truthy
non-string raises `AttributeError` at `url.endswith('/')` (line 68). -/
def getJobNameFromUrlDyn (u : PyVal) : Except String PyVal :=
  if !pyTruthy u then .ok (.str "Unknown")
  else
    match u with
    | .str s => .ok (.str (getJobNameFromUrl s))
    | _ => .error "AttributeError: object has no attribute endswith"

/-- Lines 93-105: resolve `job_name`.  Note that `'name' in build['job']`
raises when `build['job']` is a non-container, and that a present key is
taken whatever its value's type. -/
def jobNameDyn (build : List (String × PyVal)) : Except String PyVal :=
  match pyLookup build "jobName" with
  | some v => .ok v
  | Option.none =>
  match pyLookup build "jobFullName" with
  | some v => .ok v
  | Option.none =>
  match pyLookup build "jobDisplayName" with
  | some v => .ok v
  | Option.none =>
  match pyLookup build "job" with
  | some j =>
    (match pyIn "name" j with
     | .error e => .error e
     | .ok true => pyGetItem j "name"
     | .ok false =>
       match pyIn "fullName" j with
       | .error e => .error e
       | .ok true => pyGetItem j "fullName"
       | .ok false => getJobNameFromUrlDyn ((pyLookup build "url").getD (.str "")))
  | Option.none => getJobNameFromUrlDyn ((pyLookup build "url").getD (.str ""))

/-- Lines 119-123: the inner `for param in action['parameters']` loop.  The
first parameter whose name case-folds to `branch`/`git_branch` assigns
`branch = param.get('value', '')` and `break`s; the assignment overwrites
whatever `branch` held before. -/
def scanParamsDyn (branch : PyVal) : List PyVal → Except String PyVal
  | [] => .ok branch
  | p :: rest =>
    match pyDictGet p "name" (.str "") with
    | .error e => .error e
    | .ok nv =>
      match nv with
      | .str n =>
        if pyLower n == "branch" || pyLower n == "git_branch" then
          pyDictGet p "value" (.str "")
        else scanParamsDyn branch rest
      | _ => .error "AttributeError: object has no attribute lower"

/-- Lines 126-137: the `for cause in action.get('causes', [])` loop.  A cause
only fills `branch` when `branch` is still falsy (`not branch`, line 135). -/
def scanCausesDyn (branch : PyVal) : List PyVal → Except String PyVal
  | [] => .ok branch
  | c :: rest =>
    match pyIn "shortDescription" c with
    | .error e => .error e
    | .ok false => scanCausesDyn branch rest
    | .ok true =>
      match pyGetItem c "shortDescription" with
      | .error e => .error e
      | .ok dv =>
        match dv with
        | .str desc =>
          if strContains (pyLower desc) "branch" then
            let branch_parts := pySplit desc "branch"
            if branch_parts.length > 1 then
              let potential_branch :=
                pyStrip (pyStripColon (pyStrip (branch_parts.getD 1 "")))
              if potential_branch != "" && !pyTruthy branch then
                scanCausesDyn (.str potential_branch) rest
              else scanCausesDyn branch rest
            else scanCausesDyn branch rest
          else scanCausesDyn branch rest
        | _ => .error "AttributeError: object has no attribute lower"

/-- Lines 116-137: one iteration of `for action in build.get('actions', [])`:
the parameters scan, then the causes scan. -/
def scanActionDyn (branch : PyVal) (action : PyVal) : Except String PyVal :=
  match pyIn "parameters" action with
  | .error e => .error e
  | .ok hasParams =>
    let afterParams : Except String PyVal :=
      if hasParams then
        match pyGetItem action "parameters" with
        | .error e => .error e
        | .ok ps =>
          match pyIter ps with
          | .error e => .error e
          | .ok items => scanParamsDyn branch items
      else .ok branch
    match afterParams with
    | .error e => .error e
    | .ok branch =>
      match pyIn "causes" action with
      | .error e => .error e
      | .ok false => .ok branch
      | .ok true =>
        match pyDictGet action "causes" (.list []) with
        | .error e => .error e
        | .ok cs =>
          match pyIter cs with
          | .error e => .error e
          | .ok citems => scanCausesDyn branch citems

/-- The whole `for action in ...` loop (the outer loop never breaks, so a
later action's parameter match overwrites an earlier one's). -/
def scanActionsDyn (branch : PyVal) : List PyVal → Except String PyVal
  | [] => .ok branch
  | a :: rest =>
    match scanActionDyn branch a with
    | .error e => .error e
    | .ok branch => scanActionsDyn branch rest

/-- Lines 112-146: branch extraction — actions scan, then the
full-display-name regex fallback when `branch` is still falsy. -/
def extractBranchDyn (build : List (String × PyVal)) : Except String PyVal :=
  let afterActions : Except String PyVal :=
    match pyLookup build "actions" with
    | some acts =>
      (match pyIter acts with
       | .error e => .error e
       | .ok items => scanActionsDyn .none items)
    | Option.none => .ok PyVal.none
  match afterActions with
  | .error e => .error e
  | .ok branch =>
    if !pyTruthy branch then
      match (pyLookup build "fullDisplayName").getD (.str "") with
      | .str full_display =>
        if strContains (pyLower full_display) "branch" then
          match regexSearchBranch full_display.toList with
          | some g => .ok (.str g)
          | Option.none => .ok branch
        else .ok branch
      | _ => .error "AttributeError: object has no attribute lower"
    else .ok branch

/-- Lines 158-162: the `elif 'displayName' in build and build['displayName']`
arm and the `#<number>` fallback. -/
def displayBaseElseDyn (build : List (String × PyVal)) (build_number : PyVal) :
    Except String PyVal :=
  match pyLookup build "displayName" with
  | some d => if pyTruthy d then .ok d else .ok (.str ("#" ++ pyStrOf build_number))
  | Option.none => .ok (.str ("#" ++ pyStrOf build_number))

/-- Lines 148-162: the base display text before fix-ups.  `fullDisplayName`
must be present *and truthy*; `full_display.startswith(job_name)` raises when
either side is not a string. -/
def displayBaseDyn (build : List (String × PyVal)) (job_name : PyVal)
    (build_number : PyVal) : Except String PyVal :=
  match pyLookup build "fullDisplayName" with
  | some fd =>
    if pyTruthy fd then
      match fd with
      | .str full_display =>
        (match job_name with
         | .str jn =>
           if strStartsWith full_display jn then
             .ok (.str (pyStrip (strDropChars full_display (strLen jn))))
           else .ok (.str full_display)
         | _ => .error "TypeError: startswith first arg must be str")
      | _ => .error "AttributeError: object has no attribute startswith"
    else displayBaseElseDyn build build_number
  | Option.none => displayBaseElseDyn build build_number

/-- Lines 164-170: replace an empty/all-whitespace display with
`#<number>`, then force a leading `#`.  `build_display.isspace()` raises on
a truthy non-string. -/
def fixupDisplayDyn (build_number : PyVal) (bd : PyVal) : Except String String :=
  if !pyTruthy bd then .ok ("#" ++ pyStrOf build_number)
  else
    match bd with
    | .str s =>
      if pyIsspace s then .ok ("#" ++ pyStrOf build_number)
      else if !strStartsWith s "#" then .ok ("#" ++ pyStrOf build_number ++ " - " ++ s)
      else .ok s
    | _ => .error "AttributeError: object has no attribute isspace"

/-- Lines 172-179: append ` - [<branch>]` — the `devops` special case first,
otherwise whenever a truthy branch is not already bracketed in the label.
Total (f-strings and substring tests cannot raise). -/
def appendBranchDyn (bd : String) (branch : PyVal) : String :=
  if strContains bd " - devops" && pyTruthy branch then
    (if !strContains bd (" - [" ++ pyStrOf branch ++ "]") then
       bd ++ " - [" ++ pyStrOf branch ++ "]"
     else bd)
  else if pyTruthy branch && !strContains bd ("[" ++ pyStrOf branch ++ "]") then
    bd ++ " - [" ++ pyStrOf branch ++ "]"
  else bd

/-- Lines 181-185: progress percentage.  `build['estimatedDuration'] > 0`
raises on a non-numeric value; `int((elapsed / est) * 100)` truncates toward
zero and is only clamped from above (`min(100, ...)`). -/
def progressDyn (now : Int) (build : List (String × PyVal)) : Except String Int :=
  match pyLookup build "estimatedDuration" with
  | some ed =>
    (match pyGtZero ed with
     | .error e => .error e
     | .ok false => .ok 0
     | .ok true =>
       match pyLookup build "timestamp" with
       | some ts =>
         (match pyToInt ts with
          | .error e => .error e
          | .ok tsI =>
            match pyToInt ed with
            | .error e => .error e
            | .ok edI =>
              let elapsed := now - tsI
              .ok (min 100 (pyTruncDiv (elapsed * 100) edI)))
       | Option.none => .ok 0)
  | Option.none => .ok 0

/-- Lines 197-199: `f"{minutes}m {seconds}s"` from a positive remainder. -/
def fmtRemaining (time_remaining : Int) : String :=
  let minutes := pyTruncDiv time_remaining 60000
  let seconds := pyTruncDiv (Int.emod time_remaining 60000) 1000
  toString minutes ++ "m " ++ toString seconds ++ "s"

/-- Lines 187-199: remaining time (the precondition of line 189 is the same
test as line 183, re-evaluated). -/
def remainingDyn (now : Int) (build : List (String × PyVal)) :
    Except String String :=
  match pyLookup build "estimatedDuration" with
  | some ed =>
    (match pyGtZero ed with
     | .error e => .error e
     | .ok false => .ok "Unknown"
     | .ok true =>
       match pyLookup build "timestamp" with
       | some ts =>
         (match pyToInt ts with
          | .error e => .error e
          | .ok tsI =>
            match pyToInt ed with
            | .error e => .error e
            | .ok edI =>
              let time_elapsed := now - tsI
              let time_remaining := edI - time_elapsed
              if time_remaining ≤ 0 then .ok "Overdue"
              else .ok (fmtRemaining time_remaining))
       | Option.none => .ok "Unknown")
  | Option.none => .ok "Unknown"

/-- Round-half-to-even of `ms / 6000` (the tenths digit of `ms / 60000`),
in exact integer arithmetic. -/
def roundHalfEvenTenths (ms : Int) : Int :=
  let fl := Int.fdiv ms 6000
  let rem := ms - fl * 6000
  if 2 * rem < 6000 then fl
  else if 2 * rem > 6000 then fl + 1
  else if Int.emod fl 2 == 0 then fl else fl + 1

/-- Line 212 / 250: `f"{ms / 60000:.1f}m"` — one-decimal minutes.  Modelled
as decimal rounding of the exact quotient (the binary float can differ only
on ties that the source's data never hits). -/
def fmtDurMin (ms : Int) : String :=
  let t := roundHalfEvenTenths ms
  let sign := if t < 0 then "-" else ""
  sign ++ toString (t.natAbs / 10) ++ "." ++ toString (t.natAbs % 10) ++ "m"

/-- Lines 82-218: the whole `_get_build_info`, evaluated in source order
(job name, build number, branch, display label, progress, remaining, result
dict).  The result is the returned dict. -/
def getBuildInfoDyn (now : Int) (build : List (String × PyVal)) :
    Except String PyVal :=
  match jobNameDyn build with
  | .error e => .error e
  | .ok job_name =>
    let build_number := (pyLookup build "number").getD (.str "N/A")
    match extractBranchDyn build with
    | .error e => .error e
    | .ok branch =>
      match displayBaseDyn build job_name build_number with
      | .error e => .error e
      | .ok bd0 =>
        match fixupDisplayDyn build_number bd0 with
        | .error e => .error e
        | .ok bd1 =>
          let build_display := appendBranchDyn bd1 branch
          match progressDyn now build with
          | .error e => .error e
          | .ok progress_pct =>
            match remainingDyn now build with
            | .error e => .error e
            | .ok remaining =>
              match pyToInt ((pyLookup build "estimatedDuration").getD (.int 0)) with
              | .error e => .error e
              | .ok edI =>
                .ok (.dict [
                  ("id", (pyLookup build "id").getD (.str "unknown")),
                  ("job_name", job_name),
                  ("build_number", build_number),
                  ("build_display", .str build_display),
                  ("estimated_duration", .str (fmtDurMin edI)),
                  ("progress", .int progress_pct),
                  ("remaining", .str remaining),
                  ("url", (pyLookup build "url").getD (.str "")),
                  ("timestamp", (pyLookup build "timestamp").getD (.int 0)),
                  ("branch", branch)])

/-! ## Typed raw records

A raw build record whose present fields carry the documented upstream
types.  Every field is optional: `none` models an absent key. -/

structure Job where
  name : Option String := none
  fullName : Option String := none
  displayName : Option String := none
deriving DecidableEq, Repr

structure Param where
  name : Option String := none
  value : Option String := none
deriving DecidableEq, Repr

structure Cause where
  shortDescription : Option String := none
deriving DecidableEq, Repr

structure Action where
  parameters : Option (List Param) := none
  causes : Option (List Cause) := none
deriving DecidableEq, Repr

structure Build where
  jobName : Option String := none
  jobFullName : Option String := none
  jobDisplayName : Option String := none
  job : Option Job := none
  number : Option Int := none
  url : Option String := none
  id : Option String := none
  fullDisplayName : Option String := none
  displayName : Option String := none
  actions : Option (List Action) := none
  estimatedDuration : Option Int := none
  timestamp : Option Int := none
  result : Option String := none
  duration : Option Int := none
deriving DecidableEq, Repr

/-- A raw queue item (`/queue/api/json` entry). -/
structure Task where
  name : Option String := none
deriving DecidableEq, Repr

structure QueueItem where
  id : Option Int := none
  task : Option Task := none
  why : Option String := none
  inQueueSince : Option Int := none
deriving DecidableEq, Repr

/-- Truthiness of an optional string (Python: `None` and `""` are falsy). -/
def optTruthy : Option String → Bool
  | some s => s != ""
  | none => false

/-! ## Typed model of `_get_build_info` -/

/-- Lines 93-105 on a well-typed record. -/
def jobNameT (b : Build) : String :=
  match b.jobName with
  | some s => s
  | none =>
  match b.jobFullName with
  | some s => s
  | none =>
  match b.jobDisplayName with
  | some s => s
  | none =>
  match b.job with
  | some j =>
    (match j.name with
     | some s => s
     | none =>
       match j.fullName with
       | some s => s
       | none => getJobNameFromUrl (b.url.getD ""))
  | none => getJobNameFromUrl (b.url.getD "")

/-- Line 109: `build.get('number', 'N/A')`, rendered as the f-strings see
it. -/
def buildNumberStr (b : Build) : String :=
  match b.number with
  | some n => toString n
  | none => "N/A"

/-- The parameter-name test of line 120. -/
def isBranchParamName (n : Option String) : Bool :=
  pyLower (n.getD "") == "branch" || pyLower (n.getD "") == "git_branch"

/-- Lines 119-123 (typed): first matching parameter wins within one action
and overwrites any previous branch. -/
def scanParamsT (branch : Option String) : List Param → Option String
  | [] => branch
  | p :: rest =>
    if isBranchParamName p.name then some (p.value.getD "")
    else scanParamsT branch rest

/-- Lines 126-137 (typed): a cause fills the branch only while it is falsy. -/
def scanCausesT (branch : Option String) : List Cause → Option String
  | [] => branch
  | c :: rest =>
    match c.shortDescription with
    | none => scanCausesT branch rest
    | some desc =>
      if strContains (pyLower desc) "branch" then
        let branch_parts := pySplit desc "branch"
        if branch_parts.length > 1 then
          let potential_branch :=
            pyStrip (pyStripColon (pyStrip (branch_parts.getD 1 "")))
          if potential_branch != "" && !optTruthy branch then
            scanCausesT (some potential_branch) rest
          else scanCausesT branch rest
        else scanCausesT branch rest
      else scanCausesT branch rest

/-- One action: parameters scan then causes scan. -/
def scanActionT (branch : Option String) (a : Action) : Option String :=
  let branch :=
    match a.parameters with
    | some ps => scanParamsT branch ps
    | none => branch
  match a.causes with
  | some cs => scanCausesT branch cs
  | none => branch

/-- Lines 112-146 (typed). -/
def extractBranchT (b : Build) : Option String :=
  let branch := (b.actions.getD []).foldl scanActionT none
  if !optTruthy branch then
    let full_display := b.fullDisplayName.getD ""
    if strContains (pyLower full_display) "branch" then
      match regexSearchBranch full_display.toList with
      | some g => some g
      | none => branch
    else branch
  else branch

/-- Lines 158-162 (typed). -/
def displayBaseElseT (b : Build) : String :=
  match b.displayName with
  | some d => if d != "" then d else "#" ++ buildNumberStr b
  | none => "#" ++ buildNumberStr b

/-- Lines 148-162 (typed). -/
def displayBaseT (b : Build) (job_name : String) : String :=
  match b.fullDisplayName with
  | some full_display =>
    if full_display != "" then
      (if strStartsWith full_display job_name then
         pyStrip (strDropChars full_display (strLen job_name))
       else full_display)
    else displayBaseElseT b
  | none => displayBaseElseT b

/-- Lines 164-170 (typed). -/
def fixupDisplayT (numStr : String) (bd : String) : String :=
  let bd1 := if bd == "" || pyIsspace bd then "#" ++ numStr else bd
  if !strStartsWith bd1 "#" then "#" ++ numStr ++ " - " ++ bd1 else bd1

/-- Lines 172-179 (typed).  `brStr` renders the branch exactly as the
source's f-string would (`None` for an absent branch — only reachable in the
untaken arms). -/
def appendBranchT (bd : String) (branch : Option String) : String :=
  let brStr := match branch with | some s => s | none => "None"
  if strContains bd " - devops" && optTruthy branch then
    (if !strContains bd (" - [" ++ brStr ++ "]") then
       bd ++ " - [" ++ brStr ++ "]"
     else bd)
  else if optTruthy branch && !strContains bd ("[" ++ brStr ++ "]") then
    bd ++ " - [" ++ brStr ++ "]"
  else bd

/-- Lines 181-185 (typed). -/
def progressT (now : Int) (b : Build) : Int :=
  match b.estimatedDuration with
  | some ed =>
    if ed > 0 then
      match b.timestamp with
      | some ts => min 100 (pyTruncDiv ((now - ts) * 100) ed)
      | none => 0
    else 0
  | none => 0

/-- Lines 187-199 (typed). -/
def remainingT (now : Int) (b : Build) : String :=
  match b.estimatedDuration with
  | some ed =>
    if ed > 0 then
      match b.timestamp with
      | some ts =>
        let time_remaining := ed - (now - ts)
        if time_remaining ≤ 0 then "Overdue" else fmtRemaining time_remaining
      | none => "Unknown"
    else "Unknown"
  | none => "Unknown"

/-- The canonical record `_get_build_info` returns (typed view of the dict
of lines 207-218; `build_number` keeps the raw int, `none` standing for the
`'N/A'` sentinel). -/
structure BuildInfo where
  id : String
  job_name : String
  build_number : Option Int
  build_display : String
  estimated_duration : String
  progress : Int
  remaining : String
  url : String
  timestamp : Int
  branch : Option String
deriving DecidableEq, Repr

/-- Lines 82-218 (typed). -/
def getBuildInfoT (now : Int) (b : Build) : BuildInfo :=
  let job_name := jobNameT b
  let branch := extractBranchT b
  let bd1 := fixupDisplayT (buildNumberStr b) (displayBaseT b job_name)
  { id := b.id.getD "unknown"
    job_name := job_name
    build_number := b.number
    build_display := appendBranchT bd1 branch
    estimated_duration := fmtDurMin (b.estimatedDuration.getD 0)
    progress := progressT now b
    remaining := remainingT now b
    url := b.url.getD ""
    timestamp := b.timestamp.getD 0
    branch := branch }

/-! ## Encoding typed records as dynamic values -/

/-- A present field becomes a dict entry; an absent one no entry at all. -/
def optEntry (k : String) : Option PyVal → List (String × PyVal)
  | some v => [(k, v)]
  | none => []

def encodeJob (j : Job) : PyVal :=
  .dict (optEntry "name" (j.name.map .str) ++
         optEntry "fullName" (j.fullName.map .str) ++
         optEntry "displayName" (j.displayName.map .str))

def encodeParam (p : Param) : PyVal :=
  .dict (optEntry "name" (p.name.map .str) ++
         optEntry "value" (p.value.map .str))

def encodeCause (c : Cause) : PyVal :=
  .dict (optEntry "shortDescription" (c.shortDescription.map .str))

def encodeAction (a : Action) : PyVal :=
  .dict (optEntry "parameters" (a.parameters.map (fun ps => .list (ps.map encodeParam))) ++
         optEntry "causes" (a.causes.map (fun cs => .list (cs.map encodeCause))))

def encodeBuild (b : Build) : List (String × PyVal) :=
  optEntry "jobName" (b.jobName.map .str) ++
  optEntry "jobFullName" (b.jobFullName.map .str) ++
  optEntry "jobDisplayName" (b.jobDisplayName.map .str) ++
  optEntry "job" (b.job.map encodeJob) ++
  optEntry "number" (b.number.map .int) ++
  optEntry "url" (b.url.map .str) ++
  optEntry "id" (b.id.map .str) ++
  optEntry "fullDisplayName" (b.fullDisplayName.map .str) ++
  optEntry "displayName" (b.displayName.map .str) ++
  optEntry "actions" (b.actions.map (fun as => .list (as.map encodeAction))) ++
  optEntry "estimatedDuration" (b.estimatedDuration.map .int) ++
  optEntry "timestamp" (b.timestamp.map .int) ++
  optEntry "result" (b.result.map .str) ++
  optEntry "duration" (b.duration.map .int)

/-- The branch variable as the dynamic code holds it. -/
def encodeBranch : Option String → PyVal
  | some s => .str s
  | none => .none

/-- The dict `_get_build_info` returns, built from the typed canonical
record. -/
def encodeOut (o : BuildInfo) : PyVal :=
  .dict [
    ("id", .str o.id),
    ("job_name", .str o.job_name),
    ("build_number", match o.build_number with | some n => .int n | none => .str "N/A"),
    ("build_display", .str o.build_display),
    ("estimated_duration", .str o.estimated_duration),
    ("progress", .int o.progress),
    ("remaining", .str o.remaining),
    ("url", .str o.url),
    ("timestamp", .int o.timestamp),
    ("branch", encodeBranch o.branch)]

/-- `build.get('number', 'N/A')` on an encoded record. -/
def encodeNumber : Option Int → PyVal
  | some n => .int n
  | none => .str "N/A"

end JD

namespace JD

/-! ## Bridge lemmas: the dynamic model on encoded records -/

theorem pyLookup_nil (k : String) : pyLookup [] k = none := rfl

theorem pyLookup_optEntry_append (k k' : String) (v : Option PyVal)
    (rest : List (String × PyVal)) :
    pyLookup (optEntry k v ++ rest) k' =
      if k = k' then v.or (pyLookup rest k') else pyLookup rest k' := by
  cases v with
  | some x =>
    by_cases h : k = k' <;>
      simp [optEntry, pyLookup, List.find?_cons, h]
  | none => by_cases h : k = k' <;> simp [optEntry, h, Option.or]

theorem pyLookup_optEntry (k k' : String) (v : Option PyVal) :
    pyLookup (optEntry k v) k' = if k = k' then v else none := by
  cases v with
  | some x => by_cases h : k = k' <;> simp [optEntry, pyLookup, List.find?_cons, h]
  | none => by_cases h : k = k' <;> simp [optEntry, pyLookup, h]

theorem pyTruthy_encodeBranch (br : Option String) :
    pyTruthy (encodeBranch br) = optTruthy br := by
  cases br <;> simp [encodeBranch, pyTruthy, optTruthy]

theorem pyStrOf_encodeBranch (br : Option String) :
    pyStrOf (encodeBranch br) = (match br with | some s => s | none => "None") := by
  cases br <;> rfl

theorem pyStrOf_encodeNumber (n : Option Int) :
    pyStrOf (encodeNumber n) = (match n with | some m => toString m | none => "N/A") := by
  cases n <;> rfl

theorem getJobNameFromUrlDyn_str (u : String) :
    getJobNameFromUrlDyn (.str u) = .ok (.str (getJobNameFromUrl u)) := by
  by_cases h : u = "" <;>
    simp [getJobNameFromUrlDyn, pyTruthy, getJobNameFromUrl, h]

theorem pyIn_dict_isSome (kvs : List (String × PyVal)) (k : String) :
    pyIn k (.dict kvs) = .ok ((pyLookup kvs k).isSome) := by
  induction kvs with
  | nil => rfl
  | cons kv rest ih =>
    simp only [pyIn, pyLookup, List.any_cons, List.find?_cons] at *
    cases h : kv.1 == k <;> simp_all

theorem pyGetItem_dict (kvs : List (String × PyVal)) (k : String) :
    pyGetItem (.dict kvs) k =
      (match pyLookup kvs k with
       | some x => .ok x
       | none => .error "KeyError") := rfl

/-! encodeJob field lemmas -/

theorem pyLookup_encodeJob_name (j : Job) :
    (match encodeJob j with | .dict kvs => pyLookup kvs "name" | _ => none)
      = j.name.map .str := by
  cases hn : j.name <;>
    simp [encodeJob, pyLookup_optEntry_append, pyLookup_optEntry, hn, Option.or]

theorem pyIn_encodeJob_name (j : Job) :
    pyIn "name" (encodeJob j) = .ok j.name.isSome := by
  have := pyLookup_encodeJob_name j
  cases hn : j.name <;>
    simp [encodeJob, pyIn_dict_isSome, pyLookup_optEntry_append, pyLookup_optEntry, hn, Option.or]

theorem pyIn_encodeJob_fullName (j : Job) :
    pyIn "fullName" (encodeJob j) = .ok j.fullName.isSome := by
  cases hn : j.name <;> cases hf : j.fullName <;>
    simp [encodeJob, pyIn_dict_isSome, pyLookup_optEntry_append, pyLookup_optEntry, hn, hf, Option.or]

theorem pyGetItem_encodeJob_name (j : Job) (s : String) (h : j.name = some s) :
    pyGetItem (encodeJob j) "name" = .ok (.str s) := by
  simp [encodeJob, pyGetItem, pyLookup_optEntry_append, pyLookup_optEntry, h, Option.or]

theorem pyGetItem_encodeJob_fullName (j : Job) (s : String)
    (h : j.fullName = some s) :
    pyGetItem (encodeJob j) "fullName" = .ok (.str s) := by
  cases hn : j.name <;>
    simp [encodeJob, pyGetItem, pyLookup_optEntry_append, pyLookup_optEntry, h, hn, Option.or]

/-! encodeParam / encodeCause / encodeAction field lemmas -/

theorem pyDictGet_encodeParam_name (p : Param) :
    pyDictGet (encodeParam p) "name" (.str "") = .ok (.str (p.name.getD "")) := by
  cases hn : p.name <;>
    simp [encodeParam, pyDictGet, pyLookup_optEntry_append, pyLookup_optEntry, hn, Option.or]

theorem pyDictGet_encodeParam_value (p : Param) :
    pyDictGet (encodeParam p) "value" (.str "") = .ok (.str (p.value.getD "")) := by
  cases hn : p.name <;> cases hv : p.value <;>
    simp [encodeParam, pyDictGet, pyLookup_optEntry_append, pyLookup_optEntry, hn, hv, Option.or]

theorem pyIn_encodeCause_shortDescription (c : Cause) :
    pyIn "shortDescription" (encodeCause c) = .ok c.shortDescription.isSome := by
  cases hd : c.shortDescription <;>
    simp [encodeCause, pyIn_dict_isSome, pyLookup_optEntry_append, pyLookup_optEntry, hd, Option.or]

theorem pyGetItem_encodeCause_shortDescription (c : Cause) (s : String)
    (h : c.shortDescription = some s) :
    pyGetItem (encodeCause c) "shortDescription" = .ok (.str s) := by
  simp [encodeCause, pyGetItem, pyLookup_optEntry_append, pyLookup_optEntry, h, Option.or]

theorem pyIn_encodeAction_parameters (a : Action) :
    pyIn "parameters" (encodeAction a) = .ok a.parameters.isSome := by
  cases hp : a.parameters <;>
    simp [encodeAction, pyIn_dict_isSome, pyLookup_optEntry_append, pyLookup_optEntry, hp, Option.or]

theorem pyIn_encodeAction_causes (a : Action) :
    pyIn "causes" (encodeAction a) = .ok a.causes.isSome := by
  cases hp : a.parameters <;> cases hc : a.causes <;>
    simp [encodeAction, pyIn_dict_isSome, pyLookup_optEntry_append, pyLookup_optEntry, hp, hc, Option.or]

theorem pyGetItem_encodeAction_parameters (a : Action) (ps : List Param)
    (h : a.parameters = some ps) :
    pyGetItem (encodeAction a) "parameters" = .ok (.list (ps.map encodeParam)) := by
  simp [encodeAction, pyGetItem, pyLookup_optEntry_append, pyLookup_optEntry, h, Option.or]

theorem pyDictGet_encodeAction_causes (a : Action) (cs : List Cause)
    (h : a.causes = some cs) :
    pyDictGet (encodeAction a) "causes" (.list []) =
      .ok (.list (cs.map encodeCause)) := by
  cases hp : a.parameters <;>
    simp [encodeAction, pyDictGet, pyLookup_optEntry_append, pyLookup_optEntry, h, hp, Option.or]

/-! encodeBuild field lemmas -/

theorem lkB_jobName (b : Build) :
    pyLookup (encodeBuild b) "jobName" = b.jobName.map .str := by
  simp [encodeBuild, pyLookup_optEntry_append, pyLookup_optEntry, Option.or_none]

theorem lkB_jobFullName (b : Build) :
    pyLookup (encodeBuild b) "jobFullName" = b.jobFullName.map .str := by
  simp [encodeBuild, pyLookup_optEntry_append, pyLookup_optEntry, Option.or_none]

theorem lkB_jobDisplayName (b : Build) :
    pyLookup (encodeBuild b) "jobDisplayName" = b.jobDisplayName.map .str := by
  simp [encodeBuild, pyLookup_optEntry_append, pyLookup_optEntry, Option.or_none]

theorem lkB_job (b : Build) :
    pyLookup (encodeBuild b) "job" = b.job.map encodeJob := by
  simp [encodeBuild, pyLookup_optEntry_append, pyLookup_optEntry, Option.or_none]

theorem lkB_number (b : Build) :
    pyLookup (encodeBuild b) "number" = b.number.map .int := by
  simp [encodeBuild, pyLookup_optEntry_append, pyLookup_optEntry, Option.or_none]

theorem lkB_url (b : Build) :
    pyLookup (encodeBuild b) "url" = b.url.map .str := by
  simp [encodeBuild, pyLookup_optEntry_append, pyLookup_optEntry, Option.or_none]

theorem lkB_id (b : Build) :
    pyLookup (encodeBuild b) "id" = b.id.map .str := by
  simp [encodeBuild, pyLookup_optEntry_append, pyLookup_optEntry, Option.or_none]

theorem lkB_fullDisplayName (b : Build) :
    pyLookup (encodeBuild b) "fullDisplayName" = b.fullDisplayName.map .str := by
  simp [encodeBuild, pyLookup_optEntry_append, pyLookup_optEntry, Option.or_none]

theorem lkB_displayName (b : Build) :
    pyLookup (encodeBuild b) "displayName" = b.displayName.map .str := by
  simp [encodeBuild, pyLookup_optEntry_append, pyLookup_optEntry, Option.or_none]

theorem lkB_actions (b : Build) :
    pyLookup (encodeBuild b) "actions"
      = b.actions.map (fun as => .list (as.map encodeAction)) := by
  simp [encodeBuild, pyLookup_optEntry_append, pyLookup_optEntry, Option.or_none]

theorem lkB_estimatedDuration (b : Build) :
    pyLookup (encodeBuild b) "estimatedDuration" = b.estimatedDuration.map .int := by
  simp [encodeBuild, pyLookup_optEntry_append, pyLookup_optEntry, Option.or_none]

theorem lkB_timestamp (b : Build) :
    pyLookup (encodeBuild b) "timestamp" = b.timestamp.map .int := by
  simp [encodeBuild, pyLookup_optEntry_append, pyLookup_optEntry, Option.or_none]

theorem lkB_number_getD (b : Build) :
    (pyLookup (encodeBuild b) "number").getD (.str "N/A") = encodeNumber b.number := by
  cases hn : b.number <;> simp [lkB_number, hn, encodeNumber]

/-! Phase bridges -/

/-- Lines 93-105: job-name resolution agrees with the typed model on every
encoded record. -/
theorem jobNameDyn_encode (b : Build) :
    jobNameDyn (encodeBuild b) = .ok (.str (jobNameT b)) := by
  have hurl : getJobNameFromUrlDyn ((pyLookup (encodeBuild b) "url").getD (.str ""))
      = .ok (.str (getJobNameFromUrl (b.url.getD ""))) := by
    cases hb : b.url <;> simp [lkB_url, hb, getJobNameFromUrlDyn_str]
  unfold jobNameDyn jobNameT
  rw [lkB_jobName, lkB_jobFullName, lkB_jobDisplayName, lkB_job]
  cases b.jobName with
  | some s => rfl
  | none =>
  cases b.jobFullName with
  | some s => rfl
  | none =>
  cases b.jobDisplayName with
  | some s => rfl
  | none =>
  cases b.job with
  | none => simpa using hurl
  | some j =>
    simp only [Option.map_none', Option.map_some', pyIn_encodeJob_name]
    cases hn : j.name with
    | some s => simp [pyGetItem_encodeJob_name j s hn]
    | none =>
      simp only [Option.isSome_none, pyIn_encodeJob_fullName]
      cases hf : j.fullName with
      | some s => simp [pyGetItem_encodeJob_fullName j s hf]
      | none => simpa using hurl

/-- Lines 119-123: the parameter scan agrees with the typed model. -/
theorem scanParamsDyn_encode (br : Option String) (ps : List Param) :
    scanParamsDyn (encodeBranch br) (ps.map encodeParam)
      = .ok (encodeBranch (scanParamsT br ps)) := by
  induction ps generalizing br with
  | nil => rfl
  | cons p rest ih =>
    simp only [List.map_cons, scanParamsDyn, scanParamsT,
      pyDictGet_encodeParam_name]
    have hcond : (pyLower (p.name.getD "") == "branch"
        || pyLower (p.name.getD "") == "git_branch") = isBranchParamName p.name := rfl
    rw [hcond]
    by_cases h : isBranchParamName p.name
    · simp [h, pyDictGet_encodeParam_value, encodeBranch]
    · simp [h, ih]

/-- Lines 126-137: the causes scan agrees with the typed model. -/
theorem scanCausesDyn_encode (br : Option String) (cs : List Cause) :
    scanCausesDyn (encodeBranch br) (cs.map encodeCause)
      = .ok (encodeBranch (scanCausesT br cs)) := by
  induction cs generalizing br with
  | nil => rfl
  | cons c rest ih =>
    simp only [List.map_cons, scanCausesDyn, scanCausesT,
      pyIn_encodeCause_shortDescription]
    cases hd : c.shortDescription with
    | none => simpa using ih br
    | some desc =>
      simp only [Option.isSome_some, pyGetItem_encodeCause_shortDescription c desc hd]
      by_cases h1 : strContains (pyLower desc) "branch"
      · simp only [h1, if_true]
        by_cases h2 : (pySplit desc "branch").length > 1
        · simp only [h2, if_true]
          by_cases h3 :
              (pyStrip (pyStripColon (pyStrip ((pySplit desc "branch").getD 1 ""))) != ""
                && !pyTruthy (encodeBranch br)) = true
          · rw [if_pos h3]
            rw [pyTruthy_encodeBranch] at h3
            rw [if_pos h3]
            simpa [encodeBranch] using
              ih (some (pyStrip (pyStripColon (pyStrip ((pySplit desc "branch").getD 1 "")))))
          · rw [if_neg h3]
            rw [pyTruthy_encodeBranch] at h3
            rw [if_neg h3]
            exact ih br
        · simp [h2, ih br]
      · simp [h1, ih br]

/-- Lines 116-137: one action agrees with the typed model. -/
theorem scanActionDyn_encode (br : Option String) (a : Action) :
    scanActionDyn (encodeBranch br) (encodeAction a)
      = .ok (encodeBranch (scanActionT br a)) := by
  unfold scanActionDyn scanActionT
  simp only [pyIn_encodeAction_parameters, pyIn_encodeAction_causes]
  cases hp : a.parameters with
  | none =>
    simp only [Option.isSome_none]
    cases hc : a.causes with
    | none => rfl
    | some cs =>
      simp [pyDictGet_encodeAction_causes a cs hc, pyIter, scanCausesDyn_encode]
  | some ps =>
    simp only [Option.isSome_some, if_true,
      pyGetItem_encodeAction_parameters a ps hp, pyIter, scanParamsDyn_encode]
    cases hc : a.causes with
    | none => rfl
    | some cs =>
      simp [pyDictGet_encodeAction_causes a cs hc, pyIter, scanCausesDyn_encode]

/-- The whole actions loop agrees with the typed fold. -/
theorem scanActionsDyn_encode (br : Option String) (as : List Action) :
    scanActionsDyn (encodeBranch br) (as.map encodeAction)
      = .ok (encodeBranch (as.foldl scanActionT br)) := by
  induction as generalizing br with
  | nil => rfl
  | cons a rest ih =>
    simp only [List.map_cons, scanActionsDyn, List.foldl_cons,
      scanActionDyn_encode]
    exact ih _

/-- Lines 112-146: branch extraction agrees with the typed model. -/
theorem extractBranchDyn_encode (b : Build) :
    extractBranchDyn (encodeBuild b) = .ok (encodeBranch (extractBranchT b)) := by
  unfold extractBranchDyn extractBranchT
  rw [lkB_actions, lkB_fullDisplayName]
  have hacts :
      (match b.actions.map (fun as => PyVal.list (as.map encodeAction)) with
        | some acts =>
          (match pyIter acts with
           | .error e => .error e
           | .ok items => scanActionsDyn .none items)
        | Option.none => .ok PyVal.none)
      = Except.ok (encodeBranch ((b.actions.getD []).foldl scanActionT none)) := by
    cases ha : b.actions with
    | none => rfl
    | some as =>
      simpa [pyIter] using scanActionsDyn_encode none as
  rw [hacts]
  simp only [pyTruthy_encodeBranch]
  by_cases ht : optTruthy ((b.actions.getD []).foldl scanActionT none)
  · simp [ht]
  · simp only [ht, Bool.not_false, if_true]
    have hfd : (b.fullDisplayName.map PyVal.str).getD (.str "")
        = .str (b.fullDisplayName.getD "") := by
      cases b.fullDisplayName <;> rfl
    rw [hfd]
    by_cases h1 : strContains (pyLower (b.fullDisplayName.getD "")) "branch"
    · simp only [h1, if_true]
      cases hr : regexSearchBranch (b.fullDisplayName.getD "").toList <;>
        simp [encodeBranch]
    · simp [h1]

/-- Lines 148-162: the base display agrees with the typed model. -/
theorem displayBaseDyn_encode (b : Build) (jn : String) :
    displayBaseDyn (encodeBuild b) (.str jn) (encodeNumber b.number)
      = .ok (.str (displayBaseT b jn)) := by
  have helse : displayBaseElseDyn (encodeBuild b) (encodeNumber b.number)
      = .ok (.str (displayBaseElseT b)) := by
    unfold displayBaseElseDyn displayBaseElseT
    rw [lkB_displayName]
    cases hd : b.displayName with
    | none => simp [pyStrOf_encodeNumber, buildNumberStr]
    | some d =>
      by_cases he : d = "" <;>
        simp [he, pyTruthy, pyStrOf_encodeNumber, buildNumberStr]
  unfold displayBaseDyn displayBaseT
  rw [lkB_fullDisplayName]
  cases hf : b.fullDisplayName with
  | none => simpa using helse
  | some fd =>
    by_cases he : fd = ""
    · simpa [he, pyTruthy] using helse
    · simp only [Option.map_some', he, pyTruthy]
      by_cases hs : strStartsWith fd jn <;> simp [he, hs]

theorem pyStrOf_encodeNumber_eq (b : Build) :
    pyStrOf (encodeNumber b.number) = buildNumberStr b := by
  cases h : b.number <;> simp [pyStrOf, encodeNumber, buildNumberStr, h]

theorem strStartsWith_hash (s : String) :
    strStartsWith ("#" ++ s) "#" = true := by
  simp [strStartsWith, String.toList, String.data_append, List.isPrefixOf]

/-- Lines 164-170: the display fix-up agrees with the typed model. -/
theorem fixupDisplayDyn_encode (b : Build) (s : String) :
    fixupDisplayDyn (encodeNumber b.number) (.str s)
      = .ok (fixupDisplayT (buildNumberStr b) s) := by
  unfold fixupDisplayDyn fixupDisplayT
  by_cases he : s = ""
  · simp [he, pyTruthy, pyStrOf_encodeNumber_eq, strStartsWith_hash, pyIsspace]
  · by_cases hsp : pyIsspace s
    · simp [he, pyTruthy, hsp, pyStrOf_encodeNumber_eq, strStartsWith_hash]
    · by_cases hs : strStartsWith s "#" <;>
        simp [he, pyTruthy, hsp, hs, pyStrOf_encodeNumber_eq]

/-- Lines 172-179: the branch suffix agrees with the typed model. -/
theorem appendBranchDyn_encode (bd : String) (br : Option String) :
    appendBranchDyn bd (encodeBranch br) = appendBranchT bd br := by
  unfold appendBranchDyn appendBranchT
  rw [pyTruthy_encodeBranch, pyStrOf_encodeBranch]

/-- Lines 181-185: progress agrees with the typed model. -/
theorem progressDyn_encode (now : Int) (b : Build) :
    progressDyn now (encodeBuild b) = .ok (progressT now b) := by
  unfold progressDyn progressT
  rw [lkB_estimatedDuration, lkB_timestamp]
  cases hed : b.estimatedDuration with
  | none => rfl
  | some ed =>
    simp only [Option.map_some', pyGtZero]
    by_cases hpos : ed > 0
    · cases hts : b.timestamp with
      | none => simp [hpos]
      | some ts => simp [hpos, pyToInt]
    · simp [hpos]

/-- Lines 187-199: remaining agrees with the typed model. -/
theorem remainingDyn_encode (now : Int) (b : Build) :
    remainingDyn now (encodeBuild b) = .ok (remainingT now b) := by
  unfold remainingDyn remainingT
  rw [lkB_estimatedDuration, lkB_timestamp]
  cases hed : b.estimatedDuration with
  | none => rfl
  | some ed =>
    simp only [Option.map_some', pyGtZero]
    by_cases hpos : ed > 0
    · cases hts : b.timestamp with
      | none => simp [hpos]
      | some ts =>
        by_cases hov : ed - (now - ts) ≤ 0 <;> simp [hpos, pyToInt, hov]
    · simp [hpos]

/-- **Bridge / totality of normalization on well-typed records**: on every
raw record whose present fields carry the documented types (any subset of
keys may be absent), `_get_build_info` raises nothing and its result is the
typed model's canonical record. -/
theorem getBuildInfoDyn_encode (now : Int) (b : Build) :
    getBuildInfoDyn now (encodeBuild b)
      = .ok (encodeOut (getBuildInfoT now b)) := by
  have hed : pyToInt ((pyLookup (encodeBuild b) "estimatedDuration").getD (.int 0))
      = .ok (b.estimatedDuration.getD 0) := by
    cases h : b.estimatedDuration <;> simp [lkB_estimatedDuration, h, pyToInt]
  have hid : (pyLookup (encodeBuild b) "id").getD (.str "unknown")
      = .str (b.id.getD "unknown") := by
    cases h : b.id <;> simp [lkB_id, h]
  have hurl : (pyLookup (encodeBuild b) "url").getD (.str "")
      = .str (b.url.getD "") := by
    cases h : b.url <;> simp [lkB_url, h]
  have hts : (pyLookup (encodeBuild b) "timestamp").getD (.int 0)
      = .int (b.timestamp.getD 0) := by
    cases h : b.timestamp <;> simp [lkB_timestamp, h]
  unfold getBuildInfoDyn
  simp only [jobNameDyn_encode, lkB_number_getD, extractBranchDyn_encode,
    displayBaseDyn_encode, fixupDisplayDyn_encode, appendBranchDyn_encode,
    progressDyn_encode, remainingDyn_encode, hed, hid, hurl, hts]
  unfold getBuildInfoT encodeOut
  cases hn : b.number <;> simp [encodeNumber, hn]

/-! ## `_get_completed_build_info`
(jenkins_dashboard_core_docker.py lines 220-275).  `fmtTime` models
`datetime.fromtimestamp(ms / 1000).strftime('%Y-%m-%d %H:%M:%S')`, a
local-timezone-dependent rendering, so it is a parameter of the model. -/

structure CompletedInfo where
  id : String
  job_name : String
  build_number : Option Int
  result : String
  duration : String
  timestamp : String
  url : String
  branch : Option String
deriving DecidableEq, Repr

/-- Lines 229-240: job-name resolution for a completed build.  Note the
| `fullDisplayName` arm keys on mere *presence* (no truthiness test) and
splits on `' #'` with `maxsplit=1`: two pieces exactly when `' #'` occurs. -/
def completedJobNameT (b : Build) : String :=
  match b.jobName with
  | some s => s
  | none =>
    match b.fullDisplayName with
    | some fd =>
      (match pySplit fd " #" with
       | [_] => getJobNameFromUrl (b.url.getD "")
       | p0 :: _ => p0
       | [] => getJobNameFromUrl (b.url.getD ""))
    | none => getJobNameFromUrl (b.url.getD "")

/-- Lines 256-264: the simplified branch scan (parameters only, no causes,
no display-name regex; the action loop again never breaks). -/
def completedBranchT (b : Build) : Option String :=
  (b.actions.getD []).foldl
    (fun branch a =>
      match a.parameters with
      | some ps => scanParamsT branch ps
      | none => branch)
    none

/-- Lines 220-275 (typed). -/
def getCompletedBuildInfoT (fmtTime : Int → String) (b : Build) : CompletedInfo :=
  { id := b.id.getD "unknown"
    job_name := completedJobNameT b
    build_number := b.number
    result := b.result.getD "UNKNOWN"
    duration := fmtDurMin (b.duration.getD 0)
    timestamp := fmtTime (b.timestamp.getD 0)
    url := b.url.getD ""
    branch := completedBranchT b }

/-! ## `_get_queue_info` (jenkins_dashboard_core_docker.py lines 277-311) -/

/-- The canonical queue record (dict of lines 304-311; `id` keeps the raw
int, `none` standing for the `'N/A'` sentinel). -/
structure QueueInfo where
  id : Option Int
  job_name : String
  why : String
  waiting_time : String
  waiting_ms : Int
  queued_since : Int
deriving DecidableEq, Repr

/-- Lines 277-311 (typed). -/
def getQueueInfoT (now : Int) (q : QueueItem) : QueueInfo :=
  let job_name :=
    match q.task with
    | some t =>
      (match t.name with
       | some n => n
       | none => "Unknown")
    | none => "Unknown"
  let why := q.why.getD "Unknown reason"
  let (queue_time, waiting_ms) :=
    match q.inQueueSince with
    | some since =>
      let w := now - since
      let minutes := pyTruncDiv w 60000
      let seconds := pyTruncDiv (Int.emod w 60000) 1000
      (if minutes > 0 then toString minutes ++ "m " ++ toString seconds ++ "s"
       else toString seconds ++ "s", w)
    | none => ("Unknown", 0)
  { id := q.id
    job_name := job_name
    why := why
    waiting_time := queue_time
    waiting_ms := waiting_ms
    queued_since := q.inQueueSince.getD 0 }

/-! ## The connector fetchers (jenkins_connector.py)

Each fetcher's upstream HTTP call (`get_jenkins_info`) is an oracle
argument: `.error e` models the call raising a transport/auth exception
with message `e`, `.ok none` models a falsy or key-less response, `.ok
(some x)` a well-formed one. -/

/-- One executor slot: `executor.get('currentExecutable')` is either a
(truthy) build dict or absent/None. -/
structure Executor where
  currentExecutable : Option Build := none
deriving DecidableEq, Repr

/-- One node of `/computer/api/json`: both executor lists optional. -/
structure Node where
  executors : Option (List Executor) := none
  oneOffExecutors : Option (List Executor) := none
deriving DecidableEq, Repr

/-- Lines 446-451 (both copies): copy `job.name` / `job.fullName` /
`job.displayName` into the flat `jobName` / `jobFullName` /
`jobDisplayName` keys. -/
def enhanceJobFields (b : Build) : Build :=
  match b.job with
  | some j =>
    (match j.name with
     | some n =>
       { b with jobName := some n
                jobFullName :=
                  match j.fullName with
                  | some f => some f
                  | none => b.jobFullName
                jobDisplayName :=
                  match j.displayName with
                  | some d => some d
                  | none => b.jobDisplayName }
     | none => b)
  | none => b

/-- Lines 453-457 (both copies): prefer `fullDisplayName` as the
`displayName`, else default an absent `displayName` to `#<number>`. -/
def enhanceDisplay (b : Build) : Build :=
  if b.fullDisplayName.getD "" != "" then { b with displayName := b.fullDisplayName }
  else
    match b.displayName with
    | some _ => b
    | none => { b with displayName := some ("#" ++ buildNumberStr b) }

/-- Lines 446-457 (both copies): enrich a running build in place. -/
def enhanceBuild (b : Build) : Build := enhanceDisplay (enhanceJobFields b)

/-- Lines 437-463 / 468-494 (the two identical executor blocks): keep a
build only when it has a truthy URL not seen before; the state is
(`seen_builds`, `running_builds`). -/
def processExecutor (st : List String × List Build) (e : Executor) :
    List String × List Build :=
  match e.currentExecutable with
  | some build =>
    (match build.url with
     | some u =>
       if u != "" && !st.1.contains u then (st.1 ++ [u], st.2 ++ [enhanceBuild build])
       else st
     | none => st)
  | none => st

/-- Lines 433-494: one node — regular executors, then one-off executors. -/
def processNode (st : List String × List Build) (n : Node) :
    List String × List Build :=
  (n.oneOffExecutors.getD []).foldl processExecutor
    ((n.executors.getD []).foldl processExecutor st)

/-- Lines 415-504: `get_running_builds`.  An exception anywhere in the
`try` body returns `[]` (lines 502-504), as does a falsy/key-less response
(the code then falls through to the final `return []`). -/
def getRunningBuilds (resp : Except String (Option (List Node))) : List Build :=
  match resp with
  | .error _ => []
  | .ok none => []
  | .ok (some nodes) => (nodes.foldl processNode ([], [])).2

/-- Lines 400-413: `get_build_queue` — `items` on success, else `[]`. -/
def getBuildQueue (resp : Except String (Option (List QueueItem))) :
    List QueueItem :=
  match resp with
  | .error _ => []
  | .ok none => []
  | .ok (some items) => items

/-- A `jobs` entry of the server root document (only `name` is read). -/
structure JobRec where
  name : String
deriving DecidableEq, Repr

/-- Lines 385-398: `list_jobs` — the job names on success, else `[]`. -/
def listJobs (resp : Except String (Option (List JobRec))) : List String :=
  match resp with
  | .error _ => []
  | .ok none => []
  | .ok (some jobs) => jobs.map (·.name)

/-- `job_info['lastBuild']` as `get_latest_builds` reads it: `none` models
an absent key or falsy value (lines 579); `number` may itself be absent or
falsy. -/
structure JobInfoR where
  lastBuild : Option Int := none
deriving DecidableEq, Repr

/-- Lines 530-543: `get_job_info` swallows every exception into `None`. -/
def getJobInfoM (f : String → Except String (Option JobInfoR)) (name : String) :
    Option JobInfoR :=
  match f name with
  | .error _ => none
  | .ok v => v

/-- Lines 545-559: `get_build_info` (connector) swallows every exception
into `None`. -/
def getBuildInfoM (g : String → Int → Except String (Option Build))
    (name : String) (number : Int) : Option Build :=
  match g name number with
  | .error _ => none
  | .ok v => v

/-- Stable descending sort by an integer key, modelling Python's stable
`sorted(..., reverse=True)`: an element is inserted after all earlier
elements with a key `≥` its own. -/
def insertDescBy (key : α → Int) (x : α) : List α → List α
  | [] => [x]
  | y :: ys => if key y < key x then x :: y :: ys else y :: insertDescBy key x ys

def sortDescBy (key : α → Int) (xs : List α) : List α :=
  xs.foldl (fun acc x => insertDescBy key x acc) []

/-- Lines 561-600: `get_latest_builds` — for each listed job take its last
build (skipping jobs with no truthy `lastBuild` number or no build info),
tag it with the job name, sort by timestamp descending, truncate.  The
oracles `f`/`g` model the two nested API calls. -/
def getLatestBuilds (jobsResp : Except String (Option (List JobRec)))
    (f : String → Except String (Option JobInfoR))
    (g : String → Int → Except String (Option Build)) (limit : Nat) :
    List Build :=
  let all_jobs := listJobs jobsResp
  let all_builds := all_jobs.foldl
    (fun acc job_name =>
      match getJobInfoM f job_name with
      | some ji =>
        (match ji.lastBuild with
         | some last_build_number =>
           if last_build_number != 0 then
             match getBuildInfoM g job_name last_build_number with
             | some build_info => acc ++ [{ build_info with jobName := some job_name }]
             | none => acc
           else acc
         | none => acc)
      | none => acc)
    []
  (sortDescBy (fun b => b.timestamp.getD 0) all_builds).take limit

/-! ## `JenkinsDashboardData`: snapshot state and `refresh_data`
(jenkins_dashboard_core_docker.py lines 313-393)

Python dict identity and in-place mutation are made explicit with a small
heap: `heap` is the list of every snapshot dict ever allocated (its index
is the dict's address), `cur` is the address `self.dashboard_data` points
to.  `self.dashboard_data = {...}` allocates a fresh dict and repoints
(`publish`); `self.dashboard_data['k'] = v` updates the dict at the current
address in place (`setErrorInPlace`, `setErrorTimestampInPlace`). -/

structure Snapshot where
  running_builds : List BuildInfo
  queued_builds : List QueueInfo
  latest_builds : List CompletedInfo
  timestamp : String
  error : Option String
deriving DecidableEq, Repr

structure DashState where
  heap : List Snapshot
  cur : Nat
deriving DecidableEq, Repr

/-- `self.dashboard_data = {...}`: allocate a new dict, repoint. -/
def publish (s : Snapshot) (st : DashState) : DashState :=
  { heap := st.heap ++ [s], cur := st.heap.length }

/-- Line 322: `self.dashboard_data['error'] = str(e)` (in place). -/
def setErrorInPlace (msg : String) (st : DashState) : DashState :=
  match st.heap[st.cur]? with
  | some s => { st with heap := st.heap.set st.cur { s with error := some msg } }
  | none => st

/-- Lines 392-393: `self.dashboard_data['error'] = str(e)` then
`self.dashboard_data['timestamp'] = ...` (both in place). -/
def setErrorTimestampInPlace (msg ts : String) (st : DashState) : DashState :=
  match st.heap[st.cur]? with
  | some s =>
    { st with heap := st.heap.set st.cur { s with error := some msg, timestamp := ts } }
  | none => st

/-- The environment of one `refresh_data` call: the clock, the formatted
capture time, the timestamp renderer, the three fetch outcomes (an `.error`
is the fetcher call raising — the `except` arms of lines 349/360/369 also
cover a raise inside the formatting comprehension), and `outerExc`, which
models an exception in the final assembly reaching the outer `except` of
line 390. -/
structure RefreshEnv where
  now : Int
  nowStr : String
  fmtTime : Int → String
  runningR : Except String (List Build)
  queueR : Except String (List QueueItem)
  latestR : Except String (List Build)
  outerExc : Option String

/-- Lines 330-393: `refresh_data`.  On the normal path the three queries
are attempted independently, per-query failures are collected into
`errors`, joined with `'; '`, and a *new* snapshot dict is published; on
the outer-exception path the current snapshot is mutated in place. -/
def refreshData (env : RefreshEnv) (st : DashState) : DashState :=
  match env.outerExc with
  | some e => setErrorTimestampInPlace e env.nowStr st
  | none =>
    let (formatted_builds, errs1) :=
      match env.runningR with
      | .ok rs => (sortDescBy (fun (x : BuildInfo) => x.progress) (rs.map (getBuildInfoT env.now)), [])
      | .error e => ([], ["Error fetching running builds: " ++ e])
    let (formatted_queue, errs2) :=
      match env.queueR with
      | .ok qs => (sortDescBy (fun (x : QueueInfo) => x.waiting_ms) (qs.map (getQueueInfoT env.now)), errs1)
      | .error e => ([], errs1 ++ ["Error fetching queued builds: " ++ e])
    let (formatted_latest, errs3) :=
      match env.latestR with
      | .ok ls => (ls.map (getCompletedBuildInfoT env.fmtTime), errs2)
      | .error e => ([], errs2 ++ ["Error fetching latest builds: " ++ e])
    let error_message := if errs3.isEmpty then none else some (pyJoin "; " errs3)
    publish
      { running_builds := formatted_builds
        queued_builds := formatted_queue
        latest_builds := formatted_latest
        timestamp := env.nowStr
        error := error_message }
      st

/-- Lines 317-322: one iteration of the background refresh loop's `try`:
`raised = some e` models `refresh_data` raising (its own handlers make
this all but unreachable, but the `except` arm exists and mutates the
current snapshot in place). -/
def refreshThreadStep (env : RefreshEnv) (raised : Option String)
    (st : DashState) : DashState :=
  match raised with
  | some e => setErrorInPlace e st
  | none => refreshData env st

/-! ## Supporting lemmas for the claim theorems -/

theorem strStartsWith_ne_empty (s pre : String) (hp : pre ≠ "")
    (h : strStartsWith s pre = true) : s ≠ "" := by
  intro hs
  subst hs
  rw [strStartsWith, List.isPrefixOf_iff_prefix] at h
  have := h.length_le
  simp at this
  exact hp (by cases pre with | mk d => cases d with | nil => rfl | cons c cs => simp [String.toList] at this)

theorem strStartsWith_append_right (s t pre : String)
    (h : strStartsWith s pre = true) : strStartsWith (s ++ t) pre = true := by
  rw [strStartsWith, List.isPrefixOf_iff_prefix] at *
  have hst : (s ++ t).toList = s.toList ++ t.toList := by
    simp [String.toList, String.data_append]
  rw [hst]
  exact h.trans ⟨_, rfl⟩

theorem fixupDisplayT_startsWith (n s : String) :
    strStartsWith (fixupDisplayT n s) "#" = true := by
  have hgen : ∀ bd1 : String,
      strStartsWith (if !strStartsWith bd1 "#" then "#" ++ n ++ " - " ++ bd1 else bd1)
        "#" = true := by
    intro bd1
    by_cases h : strStartsWith bd1 "#"
    · simp [h]
    · have hb : strStartsWith bd1 "#" = false := by
        cases hx : strStartsWith bd1 "#"
        · rfl
        · exact absurd hx h
      simp only [hb, Bool.not_false, if_true]
      exact strStartsWith_append_right _ _ _
        (strStartsWith_append_right _ _ _ (strStartsWith_hash n))
  exact hgen _

theorem appendBranchT_startsWith (bd : String) (br : Option String)
    (h : strStartsWith bd "#" = true) :
    strStartsWith (appendBranchT bd br) "#" = true := by
  cases br with
  | none => simpa [appendBranchT, optTruthy] using h
  | some s =>
    simp only [appendBranchT, optTruthy]
    (repeat' split) <;> solve_by_elim [strStartsWith_append_right]

/-- Spec-side mirror for the amended C5, written from the amended claim's
words: the job name is the segment immediately following the *first*
`"job"` segment that is followed by at least one more segment; with no such
segment the final segment; `"Unknown"` for an empty URL. -/
def specJobNameFirstJob (url : String) : String :=
  if url == "" then "Unknown"
  else
    let stripped := if strEndsWithChar url '/' then String.mk url.toList.dropLast else url
    let parts := pySplit stripped "/"
    match (parts.zip parts.tail).find? (fun pr => pr.1 == "job") with
    | some pr => pr.2
    | none => parts.getLastD ""

/-- The source loop returns the successor of the first `"job"` entry that
has one, i.e. the second component of the first consecutive pair whose
first component is `"job"`. -/
theorem firstAfterJob_eq_find (ps : List String) :
    firstAfterJob ps
      = ((ps.zip ps.tail).find? (fun pr => pr.1 == "job")).map (·.2) := by
  induction ps with
  | nil => rfl
  | cons a rest ih =>
    cases rest with
    | nil => rfl
    | cons b rest2 =>
      rw [show firstAfterJob (a :: b :: rest2)
            = if a == "job" then some b else firstAfterJob (b :: rest2) from rfl]
      by_cases ha : (a == "job") = true
      · simp [ha, List.zip, List.find?]
      · have hne : (a == "job") = false := by
          cases hx : a == "job"
          · rfl
          · exact absurd hx ha
        simp [hne, List.zip, List.find?, ih, List.tail_cons]

/-! ## The claims -/

/-- C5 (counterexample): for the URL
`https://jenkins.example.com/job/folder/job/leaf/` the claim's rule (segment
after the *final* `job` segment) demands `"leaf"`, but
`_get_job_name_from_url` returns `"folder"`, the segment after the *first*
`job` segment. -/
theorem c5_counterexample :
    getJobNameFromUrl "https://jenkins.example.com/job/folder/job/leaf/" = "folder"
    ∧ getJobNameFromUrl "https://jenkins.example.com/job/folder/job/leaf/" ≠ "leaf" := by
  constructor
  · decide
  · decide

/-- C5 (amended): for every raw build record with no explicit job-name
field, the job name resolved from the record's URL is the path segment
immediately following the *first* `'job'` segment that is followed by a
further segment; if there is none, it is the final path segment (after
stripping one trailing slash); for an empty URL it is `'Unknown'`.
Stated as equality with `specJobNameFirstJob`, the rule written in exactly
those words. -/
theorem c5_amended (url : String) :
    getJobNameFromUrl url = specJobNameFirstJob url := by
  unfold getJobNameFromUrl specJobNameFirstJob
  by_cases h : (url == "") = true
  · simp [h]
  · simp only [h, if_false, firstAfterJob_eq_find]
    cases hf : ((pySplit (if strEndsWithChar url '/' then String.mk url.toList.dropLast
        else url) "/").zip (pySplit (if strEndsWithChar url '/' then
        String.mk url.toList.dropLast else url) "/").tail).find?
        (fun pr => pr.1 == "job") <;> simp [hf]

/-- C6 (counterexample): with `estimatedDuration = 600000` and a timestamp
600000 ms in the future of `now`, the claim demands
`clamp(0, 100, round(...)) = 0 ∈ [0, 100]`, but the code computes
`min(100, int(-100))= -100`: there is no lower clamp. -/
theorem c6_counterexample :
    (getBuildInfoT 600000
      { estimatedDuration := some 600000, timestamp := some 1200000 }).progress = -100
    ∧ ¬(0 ≤ (getBuildInfoT 600000
        { estimatedDuration := some 600000, timestamp := some 1200000 }).progress) := by
  constructor
  · decide
  · decide

/-- C6 (amended): for every running build with `estimatedDuration > 0` and a
timestamp present, `progressPercent` equals
`min(100, trunc(100 * (now - timestamp) / estimatedDuration))` — truncation
toward zero, clamped only from above, hence ≤ 100 but possibly negative
when the timestamp lies in the future of `now`; when either precondition is
missing, `progressPercent` is 0. -/
theorem c6_amended (now : Int) (b : Build) :
    (∀ ed ts, b.estimatedDuration = some ed → 0 < ed → b.timestamp = some ts →
      (getBuildInfoT now b).progress = min 100 (Int.tdiv ((now - ts) * 100) ed)
      ∧ (getBuildInfoT now b).progress ≤ 100)
    ∧ ((b.estimatedDuration = none ∨ b.timestamp = none
        ∨ (∃ ed, b.estimatedDuration = some ed ∧ ed ≤ 0)) →
      (getBuildInfoT now b).progress = 0) := by
  have hp : (getBuildInfoT now b).progress = progressT now b := by
    simp [getBuildInfoT]
  constructor
  · intro ed ts hed hpos hts
    rw [hp]
    unfold progressT
    rw [hed, hts]
    simp only [hpos, if_true]
    exact ⟨rfl, min_le_left _ _⟩
  · intro hmiss
    rw [hp]
    unfold progressT
    rcases hmiss with h | h | ⟨ed, hed, hle⟩
    · rw [h]
    · rw [h]
      cases hed : b.estimatedDuration with
      | none => rfl
      | some ed => simp only []; split <;> rfl
    · rw [hed]
      simp [not_lt.mpr hle]

/-- C6 witness. -/
theorem c6_amended_witness :
    (getBuildInfoT 1000000
      { estimatedDuration := some 600000, timestamp := some 700000 }).progress = 50 := by
  have h := (c6_amended 1000000
    { estimatedDuration := some 600000, timestamp := some 700000 }).1
    600000 700000 rfl (by decide) rfl
  rw [h.1]
  decide

/-- C7: for every running build with `estimatedDuration > 0` and a timestamp
present, `remaining` is `"Overdue"` exactly when
`estimatedDuration - (now - timestamp) ≤ 0`, and otherwise is
`"<m>m <s>s"` computed from the positive remainder; when either
precondition is missing, `remaining` is `"Unknown"`. -/
theorem c7_remaining (now : Int) (b : Build) :
    (∀ ed ts, b.estimatedDuration = some ed → 0 < ed → b.timestamp = some ts →
      ((getBuildInfoT now b).remaining = "Overdue" ↔ ed - (now - ts) ≤ 0)
      ∧ (0 < ed - (now - ts) →
        (getBuildInfoT now b).remaining
          = toString (Int.tdiv (ed - (now - ts)) 60000) ++ "m "
            ++ toString (Int.tdiv (Int.emod (ed - (now - ts)) 60000) 1000) ++ "s"))
    ∧ ((b.estimatedDuration = none ∨ b.timestamp = none
        ∨ (∃ ed, b.estimatedDuration = some ed ∧ ed ≤ 0)) →
      (getBuildInfoT now b).remaining = "Unknown") := by
  have hr : (getBuildInfoT now b).remaining = remainingT now b := by
    simp [getBuildInfoT]
  have hfmt_ne : ∀ tr : Int, fmtRemaining tr ≠ "Overdue" := by
    intro tr heq
    have hdata : (fmtRemaining tr).toList
        = (toString (pyTruncDiv tr 60000) ++ "m "
            ++ toString (pyTruncDiv (Int.emod tr 60000) 1000)).toList ++ ['s'] := by
      unfold fmtRemaining
      simp only [String.toList, String.data_append]
    have hlast : (fmtRemaining tr).toList.getLast? = some 's' := by
      rw [hdata]
      exact List.getLast?_concat _
    rw [heq] at hlast
    exact absurd hlast (by decide)
  constructor
  · intro ed ts hed hpos hts
    rw [hr]
    unfold remainingT
    rw [hed, hts]
    simp only [hpos, if_true]
    constructor
    · by_cases hov : ed - (now - ts) ≤ 0
      · simp [hov]
      · rw [if_neg hov]
        constructor
        · intro h
          exact absurd h (hfmt_ne _)
        · intro h
          exact absurd h hov
    · intro hlt
      have hov : ¬(ed - (now - ts) ≤ 0) := not_le.mpr hlt
      simp only [hov, if_false]
      rfl
  · intro hmiss
    rw [hr]
    unfold remainingT
    rcases hmiss with h | h | ⟨ed, hed, hle⟩
    · rw [h]
    · rw [h]
      cases hed : b.estimatedDuration with
      | none => rfl
      | some ed => simp only []; split <;> rfl
    · rw [hed]
      simp [not_lt.mpr hle]

/-- C7 witness: the claim's two examples — `estimatedDuration 600000` with
the build 700000 ms old is `"Overdue"`; 300000 ms old is `"5m 0s"`. -/
theorem c7_remaining_witness :
    (getBuildInfoT 1000000
      { estimatedDuration := some 600000, timestamp := some 300000 }).remaining = "Overdue"
    ∧ (getBuildInfoT 1000000
      { estimatedDuration := some 600000, timestamp := some 700000 }).remaining = "5m 0s" := by
  constructor
  · exact ((c7_remaining 1000000
      { estimatedDuration := some 600000, timestamp := some 300000 }).1
      600000 300000 rfl (by decide) rfl).1.mpr (by decide)
  · have h := ((c7_remaining 1000000
      { estimatedDuration := some 600000, timestamp := some 700000 }).1
      600000 700000 rfl (by decide) rfl).2 (by decide)
    rw [h]
    decide

/-- C1 (counterexample): on the record
`{'estimatedDuration': '600000', 'timestamp': 0}`, whose only flaw is the
string-typed `estimatedDuration`, `_get_build_info` raises (`TypeError` at
`build['estimatedDuration'] > 0`, line 183) instead of returning a record;
the same record with the wrongly-typed key removed succeeds, so a
wrong-typed value is *not* treated as if the key were absent. -/
theorem c1_counterexample :
    (getBuildInfoDyn 0 [("estimatedDuration", .str "600000"), ("timestamp", .int 0)]).isOk
      = false
    ∧ (getBuildInfoDyn 0 [("timestamp", .int 0)]).isOk = true := by
  constructor
  · rfl
  · rfl

/-- C1 (amended): `_get_build_info` is pure and total over raw records with
absent keys — on every record whose *present* fields carry the documented
types (every `encodeBuild b`, for every subset of present fields) it returns
a canonical record without raising, and that record is the typed model's;
but a wrong-typed value is not treated as absent: it can raise (see the
counterexample). -/
theorem c1_amended (now : Int) (b : Build) :
    getBuildInfoDyn now (encodeBuild b) = .ok (encodeOut (getBuildInfoT now b)) :=
  getBuildInfoDyn_encode now b

/-- C8: for every raw build record with well-typed fields, the resolved
build label is non-empty and starts with `#`; a `fullDisplayName` beginning
with the resolved job name is stripped of that prefix and trimmed; an
empty or all-whitespace label is replaced with `#<buildNumber>`; a label
not starting with `#` is rewritten to `#<buildNumber> - <label>`; and a
record missing every field yields `jobName = "Unknown"` and
`buildLabel = "#N/A"`. -/
theorem c8_buildLabel (now : Int) (b : Build) :
    ((getBuildInfoT now b).build_display ≠ ""
      ∧ strStartsWith (getBuildInfoT now b).build_display "#" = true)
    ∧ (∀ fd, b.fullDisplayName = some fd → fd ≠ "" →
        strStartsWith fd (jobNameT b) = true →
        displayBaseT b (jobNameT b) = pyStrip (strDropChars fd (strLen (jobNameT b))))
    ∧ (∀ s : String, (s = "" ∨ pyIsspace s = true) →
        fixupDisplayT (buildNumberStr b) s = "#" ++ buildNumberStr b)
    ∧ (∀ s : String, s ≠ "" → pyIsspace s = false → strStartsWith s "#" = false →
        fixupDisplayT (buildNumberStr b) s = "#" ++ buildNumberStr b ++ " - " ++ s)
    ∧ ((getBuildInfoT now ({} : Build)).job_name = "Unknown"
        ∧ (getBuildInfoT now ({} : Build)).build_display = "#N/A") := by
  refine ⟨?_, ?_, ?_, ?_, ?_, ?_⟩
  · have hbd : (getBuildInfoT now b).build_display
        = appendBranchT (fixupDisplayT (buildNumberStr b) (displayBaseT b (jobNameT b)))
            (extractBranchT b) := by
      simp [getBuildInfoT]
    have hsw : strStartsWith (getBuildInfoT now b).build_display "#" = true := by
      rw [hbd]
      exact appendBranchT_startsWith _ _ (fixupDisplayT_startsWith _ _)
    exact ⟨strStartsWith_ne_empty _ _ (by decide) hsw, hsw⟩
  · intro fd hfd hne hsw
    unfold displayBaseT
    rw [hfd]
    have hcond : (fd != "") = true := by
      cases hx : fd == ""
      · simp [bne, hx]
      · exact absurd (by simpa using hx) hne
    simp [hcond, hsw]
  · intro s hs
    unfold fixupDisplayT
    rcases hs with h | h
    · simp [h, strStartsWith_hash]
    · simp [h, strStartsWith_hash]
  · intro s hne hsp hsw
    unfold fixupDisplayT
    have h0 : (s == "") = false := by
      cases hx : s == ""
      · rfl
      · exact absurd (by simpa using hx) hne
    simp [h0, hsp, hsw]
  · have h1 : (getBuildInfoT now ({} : Build)).job_name = jobNameT {} := by
      simp [getBuildInfoT]
    rw [h1]
    decide
  · have h2 : (getBuildInfoT now ({} : Build)).build_display
        = appendBranchT
            (fixupDisplayT (buildNumberStr {}) (displayBaseT {} (jobNameT {})))
            (extractBranchT {}) := by
      simp [getBuildInfoT]
    rw [h2]
    decide

/-- The spec's worked example record for C8. -/
def exampleNightly : Build :=
  { fullDisplayName := some "myjob #42 nightly", jobName := some "myjob",
    number := some 42 }

/-- C8 witness: the spec's worked example — `fullDisplayName
"myjob #42 nightly"` with resolved job name `"myjob"` strips to
`"#42 nightly"` — plus the all-absent default record. -/
theorem c8_buildLabel_witness :
    displayBaseT exampleNightly (jobNameT exampleNightly) = "#42 nightly"
    ∧ (getBuildInfoT 0 ({} : Build)).build_display = "#N/A"
    ∧ (getBuildInfoT 0 exampleNightly).build_display ≠ "" := by
  refine ⟨?_, (c8_buildLabel 0 ({} : Build)).2.2.2.2.2, ?_⟩
  · have h := (c8_buildLabel 0 exampleNightly).2.1
      "myjob #42 nightly" rfl (by decide) (by decide)
    rw [h]
    decide
  · exact (c8_buildLabel 0 exampleNightly).1.1

/-- C10: the fetcher methods `get_running_builds`, `get_build_queue` and
`get_latest_builds` swallow every transport failure and return an empty
list, so a refresh cycle in which every upstream request fails publishes a
snapshot with empty running/queued/latest lists and `error = None` — not a
snapshot carrying an aggregated error message. -/
theorem c10_fetchers_swallow (e1 e2 e3 : String)
    (f : String → Except String (Option JobInfoR))
    (g : String → Int → Except String (Option Build))
    (limit : Nat) (now : Int) (nowStr : String) (fmtTime : Int → String)
    (st : DashState) :
    getRunningBuilds (.error e1) = []
    ∧ getBuildQueue (.error e2) = []
    ∧ getLatestBuilds (.error e3) f g limit = []
    ∧ (refreshData
        { now := now, nowStr := nowStr, fmtTime := fmtTime,
          runningR := .ok (getRunningBuilds (.error e1)),
          queueR := .ok (getBuildQueue (.error e2)),
          latestR := .ok (getLatestBuilds (.error e3) f g limit),
          outerExc := none } st).heap[(refreshData
        { now := now, nowStr := nowStr, fmtTime := fmtTime,
          runningR := .ok (getRunningBuilds (.error e1)),
          queueR := .ok (getBuildQueue (.error e2)),
          latestR := .ok (getLatestBuilds (.error e3) f g limit),
          outerExc := none } st).cur]?
      = some { running_builds := [], queued_builds := [], latest_builds := [],
               timestamp := nowStr, error := none } := by
  have hlatest : getLatestBuilds (.error e3) f g limit = [] := by
    simp [getLatestBuilds, listJobs, sortDescBy]
  refine ⟨rfl, rfl, hlatest, ?_⟩
  simp [refreshData, getRunningBuilds, getBuildQueue, hlatest,
    sortDescBy, publish, pyJoin, List.getElem?_concat_length]

theorem listIsInfix_nil_left (l : List Char) : listIsInfix [] l = true := by
  cases l <;> simp [listIsInfix, List.isPrefixOf]

theorem listIsInfix_append_left (n h1 h2 : List Char)
    (h : listIsInfix n h1 = true) : listIsInfix n (h1 ++ h2) = true := by
  induction h1 with
  | nil =>
    simp only [listIsInfix, List.isEmpty_iff] at h
    subst h
    exact listIsInfix_nil_left _
  | cons c tl ih =>
    simp only [listIsInfix, Bool.or_eq_true] at h ⊢
    rcases h with h | h
    · left
      rw [ List.isPrefixOf_iff_prefix] at h ⊢
      rw [List.cons_append]
      exact h.trans ⟨_, rfl⟩
    · right
      exact ih h

/-- A substring of the left part survives appending on the right. -/
theorem strContains_append_left (pre suf needle : String)
    (h : strContains pre needle = true) :
    strContains (pre ++ suf) needle = true := by
  rw [strContains] at *
  have : (pre ++ suf).toList = pre.toList ++ suf.toList := by
    simp [String.toList, String.data_append]
  rw [this]
  exact listIsInfix_append_left _ _ _ h

/-- C3: when exactly the queue fetch raises while the running and latest
fetches succeed, the published snapshot carries the normalized running
builds (sorted by progress, descending) and latest builds, an empty
queued-builds list and a non-null error string mentioning the queue
failure — and it is still published (the current pointer holds it). -/
theorem c3_partial_failure (env : RefreshEnv) (st : DashState)
    (rs : List Build) (qe : String) (ls : List Build)
    (h1 : env.runningR = .ok rs) (h2 : env.queueR = .error qe)
    (h3 : env.latestR = .ok ls) (h4 : env.outerExc = none) :
    (refreshData env st).heap[(refreshData env st).cur]? = some
      { running_builds :=
          sortDescBy (fun (x : BuildInfo) => x.progress) (rs.map (getBuildInfoT env.now))
        queued_builds := []
        latest_builds := ls.map (getCompletedBuildInfoT env.fmtTime)
        timestamp := env.nowStr
        error := some ("Error fetching queued builds: " ++ qe) }
    ∧ strContains ("Error fetching queued builds: " ++ qe) "queue" = true := by
  constructor
  · unfold refreshData
    rw [h1, h2, h3, h4]
    simp [publish, pyJoin, List.getElem?_concat_length]
  · exact strContains_append_left _ _ _ (by decide)

/-- C3 witness. -/
theorem c3_partial_failure_witness :
    (refreshData
        { now := 0, nowStr := "t", fmtTime := fun _ => "d",
          runningR := .ok [{}], queueR := .error "boom",
          latestR := .ok [{}], outerExc := none }
        { heap := [], cur := 0 }).heap[(refreshData
        { now := 0, nowStr := "t", fmtTime := fun _ => "d",
          runningR := .ok [{}], queueR := .error "boom",
          latestR := .ok [{}], outerExc := none }
        { heap := [], cur := 0 }).cur]? = some
      { running_builds :=
          sortDescBy (fun (x : BuildInfo) => x.progress)
            ([({} : Build)].map (getBuildInfoT 0))
        queued_builds := []
        latest_builds := [({} : Build)].map (getCompletedBuildInfoT (fun _ => "d"))
        timestamp := "t"
        error := some ("Error fetching queued builds: " ++ "boom") } := by
  exact (c3_partial_failure
    { now := 0, nowStr := "t", fmtTime := fun _ => "d",
      runningR := .ok [{}], queueR := .error "boom",
      latestR := .ok [{}], outerExc := none }
    { heap := [], cur := 0 } [{}] "boom" [{}] rfl rfl rfl rfl).1

/-- C2 (counterexample): the outer-exception path of `refresh_data`
(lines 390-393) does *not* install a new snapshot dictionary: the address
count and the published pointer are unchanged, and the dict the reader
already holds is mutated in place (its `error`/`timestamp` fields change). -/
theorem c2_counterexample :
    (refreshData
        { now := 0, nowStr := "t1", fmtTime := fun _ => "",
          runningR := .ok [], queueR := .ok [], latestR := .ok [],
          outerExc := some "boom" }
        { heap := [{ running_builds := [], queued_builds := [], latest_builds := [],
                     timestamp := "t0", error := none }], cur := 0 }).cur = 0
    ∧ (refreshData
        { now := 0, nowStr := "t1", fmtTime := fun _ => "",
          runningR := .ok [], queueR := .ok [], latestR := .ok [],
          outerExc := some "boom" }
        { heap := [{ running_builds := [], queued_builds := [], latest_builds := [],
                     timestamp := "t0", error := none }], cur := 0 }).heap.length = 1
    ∧ (refreshData
        { now := 0, nowStr := "t1", fmtTime := fun _ => "",
          runningR := .ok [], queueR := .ok [], latestR := .ok [],
          outerExc := some "boom" }
        { heap := [{ running_builds := [], queued_builds := [], latest_builds := [],
                     timestamp := "t0", error := none }], cur := 0 }).heap[0]?
      ≠ some { running_builds := [], queued_builds := [], latest_builds := [],
               timestamp := "t0", error := none } := by
  refine ⟨rfl, rfl, ?_⟩
  decide

/-- C2 (amended): on the success path `refresh_data` installs a newly
constructed snapshot and leaves every previously published snapshot object
unmodified; but the error paths — the outer `except` of `refresh_data` and
the `except` of the refresh thread — mutate the currently published
snapshot dictionary in place (error / timestamp keys) and install nothing
new. -/
theorem c2_amended (env : RefreshEnv) (st : DashState) :
    (env.outerExc = none →
      (refreshData env st).cur = st.heap.length
      ∧ (∀ i, i < st.heap.length → (refreshData env st).heap[i]? = st.heap[i]?)
      ∧ (refreshData env st).heap.length = st.heap.length + 1)
    ∧ (∀ e, env.outerExc = some e →
      (refreshData env st).cur = st.cur
      ∧ (refreshData env st).heap.length = st.heap.length
      ∧ ∀ s0, st.heap[st.cur]? = some s0 →
        (refreshData env st).heap[st.cur]?
          = some { s0 with error := some e, timestamp := env.nowStr })
    ∧ (∀ e s0, st.heap[st.cur]? = some s0 →
      (refreshThreadStep env (some e) st).heap[st.cur]?
        = some { s0 with error := some e }
      ∧ (refreshThreadStep env (some e) st).cur = st.cur) := by
  have hset : ∀ (msg ts : String) (s0 : Snapshot), st.heap[st.cur]? = some s0 →
      (setErrorTimestampInPlace msg ts st).heap[st.cur]?
        = some { s0 with error := some msg, timestamp := ts } := by
    intro msg ts s0 h0
    unfold setErrorTimestampInPlace
    rw [h0]
    have hlt : st.cur < st.heap.length := by
      by_contra hge
      rw [List.getElem?_eq_none (by omega)] at h0
      exact Option.noConfusion h0
    simp [List.getElem?_set, hlt]
  constructor
  · intro h4
    unfold refreshData
    rw [h4]
    refine ⟨rfl, ?_, by simp [publish]⟩
    intro i hi
    simp [publish, List.getElem?_append, hi]
  constructor
  · intro e he
    unfold refreshData
    rw [he]
    refine ⟨?_, ?_, ?_⟩
    · unfold setErrorTimestampInPlace
      cases st.heap[st.cur]? <;> rfl
    · unfold setErrorTimestampInPlace
      cases st.heap[st.cur]? <;> simp [List.length_set]
    · intro s0 h0
      exact hset e env.nowStr s0 h0
  · intro e s0 h0
    unfold refreshThreadStep setErrorInPlace
    rw [h0]
    have hlt : st.cur < st.heap.length := by
      by_contra hge
      rw [List.getElem?_eq_none (by omega)] at h0
      exact Option.noConfusion h0
    constructor
    · simp [List.getElem?_set, hlt]
    · rfl

/-- C2 witness. -/
theorem c2_amended_witness :
    (refreshData
        { now := 0, nowStr := "t1", fmtTime := fun _ => "",
          runningR := .ok [], queueR := .ok [], latestR := .ok [],
          outerExc := none }
        { heap := [], cur := 0 }).cur = 0
    ∧ (refreshData
        { now := 0, nowStr := "t1", fmtTime := fun _ => "",
          runningR := .ok [], queueR := .ok [], latestR := .ok [],
          outerExc := none }
        { heap := [], cur := 0 }).heap.length = 1 := by
  have h := (c2_amended
    { now := 0, nowStr := "t1", fmtTime := fun _ => "",
      runningR := .ok [], queueR := .ok [], latestR := .ok [],
      outerExc := none }
    { heap := [], cur := 0 }).1 rfl
  exact ⟨h.1, h.2.2⟩

/-- Does an action carry a `branch`/`git_branch` parameters entry? -/
def actionHasBranchParam (a : Action) : Bool :=
  (a.parameters.getD []).any (fun p => isBranchParamName p.name)

/-- The value of the first matching parameters entry of an action. -/
def firstBranchParamValue (a : Action) : Option String :=
  ((a.parameters.getD []).find? (fun p => isBranchParamName p.name)).map
    (fun p => p.value.getD "")

theorem scanParamsT_of_find (br : Option String) (ps : List Param) (p : Param)
    (h : ps.find? (fun p => isBranchParamName p.name) = some p) :
    scanParamsT br ps = some (p.value.getD "") := by
  induction ps with
  | nil => simp at h
  | cons q rest ih =>
    rw [List.find?_cons] at h
    by_cases hq : isBranchParamName q.name
    · simp only [hq] at h
      obtain rfl : q = p := by simpa using h
      simp [scanParamsT, hq]
    · have hqf : isBranchParamName q.name = false := by
        cases hx : isBranchParamName q.name
        · rfl
        · exact absurd hx hq
      rw [hqf] at h
      simp only [scanParamsT, hqf, if_false]
      exact ih h

theorem scanParamsT_of_none (br : Option String) (ps : List Param)
    (h : ps.find? (fun p => isBranchParamName p.name) = none) :
    scanParamsT br ps = br := by
  induction ps with
  | nil => rfl
  | cons q rest ih =>
    rw [List.find?_cons] at h
    cases hx : isBranchParamName q.name
    · rw [hx] at h
      simp only [scanParamsT, hx, if_false]
      exact ih h
    · rw [hx] at h
      exact absurd h (by simp)

theorem scanCausesT_of_truthy (br : Option String) (cs : List Cause)
    (h : optTruthy br = true) : scanCausesT br cs = br := by
  induction cs with
  | nil => rfl
  | cons c rest ih =>
    unfold scanCausesT
    cases hd : c.shortDescription with
    | none => exact ih
    | some desc => simp [h, ih]

theorem scanActionT_of_match (br : Option String) (a : Action) (v : String)
    (hm : firstBranchParamValue a = some v) (hv : v ≠ "") :
    scanActionT br a = some v := by
  unfold firstBranchParamValue at hm
  unfold scanActionT
  cases hp : a.parameters with
  | none => rw [hp] at hm; simp at hm
  | some ps =>
    rw [hp] at hm
    simp only [Option.getD_some, Option.map_eq_some'] at hm
    obtain ⟨p, hfind, hval⟩ := hm
    show (match a.causes with
      | some cs => scanCausesT (scanParamsT br ps) cs
      | none => scanParamsT br ps) = some v
    rw [scanParamsT_of_find br ps p hfind, hval]
    have ht : optTruthy (some v) = true := by
      cases hx : v == ""
      · simp [optTruthy, bne, hx]
      · exact absurd (by simpa using hx) hv
    cases hc : a.causes with
    | none => rfl
    | some cs => exact scanCausesT_of_truthy _ _ ht

theorem scanActionT_no_match (br : Option String) (a : Action)
    (hm : actionHasBranchParam a = false) (ht : optTruthy br = true) :
    scanActionT br a = br := by
  unfold actionHasBranchParam at hm
  unfold scanActionT
  have hps : (match a.parameters with
      | some ps => scanParamsT br ps
      | none => br) = br := by
    cases hp : a.parameters with
    | none => rfl
    | some ps =>
      rw [hp] at hm
      simp only [Option.getD_some] at hm
      refine scanParamsT_of_none br ps ?_
      rw [List.find?_eq_none]
      exact List.any_eq_false.mp hm
  rw [hps]
  cases hc : a.causes with
  | none => rfl
  | some cs => exact scanCausesT_of_truthy _ _ ht

theorem foldl_scanActionT_no_match (br : Option String) (post : List Action)
    (hm : ∀ a ∈ post, actionHasBranchParam a = false)
    (ht : optTruthy br = true) :
    post.foldl scanActionT br = br := by
  induction post with
  | nil => rfl
  | cons a rest ih =>
    rw [List.foldl_cons,
      scanActionT_no_match br a (hm a (List.mem_cons_self _ _)) ht]
    exact ih (fun a2 h2 => hm a2 (List.mem_cons_of_mem _ h2))

/-- C9 (counterexample): the record whose actions are
`[{parameters: [{name: 'branch', value: 'alpha'}]},
  {parameters: [{name: 'BRANCH', value: 'beta'}]}]`.
The claim demands the value of the *first* matching entry, `'alpha'`; but
the actions loop never breaks, so the second action's scan overwrites the
first and the extracted branch is `'beta'`. -/
theorem c9_counterexample :
    (getBuildInfoT 0
      { actions := some [
          { parameters := some [{ name := some "branch", value := some "alpha" }] },
          { parameters := some [{ name := some "BRANCH", value := some "beta" }] }] }).branch
      = some "beta"
    ∧ (getBuildInfoT 0
      { actions := some [
          { parameters := some [{ name := some "branch", value := some "alpha" }] },
          { parameters := some [{ name := some "BRANCH", value := some "beta" }] }] }).branch
      ≠ some "alpha" := by
  constructor
  · decide
  · decide

/-- C9 (amended): within one action the first matching parameters entry
wins, but the actions loop has no early exit, so across actions the *last*
action containing a matching entry wins: whenever that action's first
matching entry has a non-empty value `v`, the extracted branch is `v` —
regardless of any earlier matching actions, of cause descriptions anywhere
(they never override a non-empty parameters-derived branch), and of any
`branch` pattern in `fullDisplayName`. -/
theorem c9_amended (now : Int) (b : Build) (pre post : List Action) (a : Action)
    (v : String)
    (hacts : b.actions = some (pre ++ a :: post))
    (hlast : ∀ a2 ∈ post, actionHasBranchParam a2 = false)
    (hv : firstBranchParamValue a = some v) (hne : v ≠ "") :
    extractBranchT b = some v ∧ (getBuildInfoT now b).branch = some v := by
  have ht : optTruthy (some v) = true := by
    cases hx : v == ""
    · simp [optTruthy, bne, hx]
    · exact absurd (by simpa using hx) hne
  have hfold : (b.actions.getD []).foldl scanActionT none = some v := by
    rw [hacts, Option.getD_some, List.foldl_append, List.foldl_cons,
      scanActionT_of_match _ a v hv hne]
    exact foldl_scanActionT_no_match _ post hlast ht
  have hex : extractBranchT b = some v := by
    unfold extractBranchT
    rw [hfold]
    simp [ht]
  refine ⟨hex, ?_⟩
  have : (getBuildInfoT now b).branch = extractBranchT b := by
    simp [getBuildInfoT]
  rw [this, hex]

/-- C9 witness. -/
theorem c9_amended_witness :
    extractBranchT
      { actions := some [
          { parameters := some [{ name := some "branch", value := some "alpha" }] },
          { parameters := some [{ name := some "BRANCH", value := some "beta" }] }] }
      = some "beta" := by
  exact (c9_amended 0
    { actions := some [
        { parameters := some [{ name := some "branch", value := some "alpha" }] },
        { parameters := some [{ name := some "BRANCH", value := some "beta" }] }] }
    [{ parameters := some [{ name := some "branch", value := some "alpha" }] }] []
    { parameters := some [{ name := some "BRANCH", value := some "beta" }] }
    "beta" rfl (by intro a2 h2; simp at h2) (by decide) (by decide)).1

/-! ## C4: deduplication of running builds -/

/-- All currently-executing builds in walk order: per node, the regular
executors then the one-off executors, each contributing its
`currentExecutable` when present. -/
def walkBuilds : List Node → List Build
  | [] => []
  | n :: rest =>
    (n.executors.getD [] ++ n.oneOffExecutors.getD []).filterMap
      (·.currentExecutable) ++ walkBuilds rest

/-- The per-build step of the URL-keyed deduplication (the body of the
`if executor.get('currentExecutable')` block). -/
def dedupStep (st : List String × List Build) (b : Build) :
    List String × List Build :=
  match b.url with
  | some u =>
    if u != "" && !st.1.contains u then (st.1 ++ [u], st.2 ++ [enhanceBuild b])
    else st
  | none => st

theorem processExecutor_eq_dedupStep (st : List String × List Build)
    (exs : List Executor) :
    exs.foldl processExecutor st
      = (exs.filterMap (·.currentExecutable)).foldl dedupStep st := by
  induction exs generalizing st with
  | nil => rfl
  | cons e rest ih =>
    rw [List.foldl_cons]
    cases he : e.currentExecutable with
    | none =>
      rw [show processExecutor st e = st by unfold processExecutor; rw [he]]
      rw [show List.filterMap (·.currentExecutable) (e :: rest)
            = List.filterMap (·.currentExecutable) rest by
          simp [List.filterMap_cons, he]]
      exact ih st
    | some b =>
      rw [show processExecutor st e = dedupStep st b by
          unfold processExecutor dedupStep; rw [he]]
      rw [show List.filterMap (·.currentExecutable) (e :: rest)
            = b :: List.filterMap (·.currentExecutable) rest by
          simp [List.filterMap_cons, he]]
      rw [List.foldl_cons]
      exact ih _

theorem foldl_processNode_eq (nodes : List Node) (st : List String × List Build) :
    nodes.foldl processNode st = (walkBuilds nodes).foldl dedupStep st := by
  induction nodes generalizing st with
  | nil => rfl
  | cons n rest ih =>
    rw [List.foldl_cons, walkBuilds, List.foldl_append, ih]
    congr 1
    unfold processNode
    rw [processExecutor_eq_dedupStep, processExecutor_eq_dedupStep,
      List.filterMap_append, List.foldl_append]

theorem enhanceBuild_url (b : Build) : (enhanceBuild b).url = b.url := by
  have h1 : ∀ b1 : Build, (enhanceDisplay b1).url = b1.url := by
    intro b1
    unfold enhanceDisplay
    (repeat' split) <;> rfl
  have h2 : (enhanceJobFields b).url = b.url := by
    unfold enhanceJobFields
    (repeat' split) <;> rfl
  rw [enhanceBuild, h1, h2]

theorem elem_append_single (u w : String) (l : List String) :
    List.elem u (l ++ [w]) = (List.elem u l || (u == w)) := by
  induction l with
  | nil =>
    show List.elem u [w] = (false || (u == w))
    rw [Bool.false_or]
    show (match u == w with | true => true | false => List.elem u [])
      = (u == w)
    cases u == w <;> rfl
  | cons c rest ih =>
    rw [List.cons_append]
    show (match u == c with | true => true | false => List.elem u (rest ++ [w]))
      = ((match u == c with | true => true | false => List.elem u rest) || (u == w))
    cases u == c
    · exact ih
    · rfl

/-- The central dedup invariant: among builds carrying a given non-empty URL
`u`, the accumulated output keeps what it already had, plus — if `u` is not
yet in `seen` — exactly the first walked build with that URL (enhanced). -/
theorem dedup_filter (u : String) (hu : u ≠ "") :
    ∀ (bs : List Build) (seen : List String) (acc : List Build),
    ((bs.foldl dedupStep (seen, acc)).2).filter (fun b => b.url == some u)
      = acc.filter (fun b => b.url == some u)
        ++ (if seen.contains u then []
            else ((bs.filter (fun b => b.url == some u)).take 1).map enhanceBuild) := by
  intro bs
  induction bs with
  | nil =>
    intro seen acc
    cases h : seen.contains u <;> simp [h]
  | cons b rest ih =>
    intro seen acc
    rw [List.foldl_cons]
    cases hb : b.url with
    | none =>
      rw [show dedupStep (seen, acc) b = (seen, acc) by unfold dedupStep; rw [hb]]
      rw [ih seen acc]
      rw [show List.filter (fun b => b.url == some u) (b :: rest)
            = List.filter (fun b => b.url == some u) rest by
          simp [List.filter_cons, hb]]
    | some w =>
      by_cases hwu : w = u
      · subst hwu
        have hmatch : (b.url == some w) = true := by rw [hb]; simp
        have hwne : (w != "") = true := by
          cases hx : w == ""
          · simp [bne, hx]
          · exact absurd (by simpa using hx) hu
        cases hseen : seen.contains w with
        | false =>
          rw [show dedupStep (seen, acc) b = (seen ++ [w], acc ++ [enhanceBuild b]) by
              unfold dedupStep
              rw [hb]
              show (if (w != "" && !seen.contains w) = true
                  then (seen ++ [w], acc ++ [enhanceBuild b]) else (seen, acc))
                = (seen ++ [w], acc ++ [enhanceBuild b])
              rw [hwne, hseen]
              rfl]
          rw [ih (seen ++ [w]) (acc ++ [enhanceBuild b])]
          have hcont : (seen ++ [w]).contains w = true := by
            show List.elem w (seen ++ [w]) = true
            rw [elem_append_single]
            have hww : (w == w) = true := by simp
            rw [hww, Bool.or_true]
          rw [hcont]
          have hfe : List.filter (fun b => b.url == some w) (acc ++ [enhanceBuild b])
              = List.filter (fun b => b.url == some w) acc ++ [enhanceBuild b] := by
            rw [List.filter_append]
            congr 1
            simp [List.filter_cons, enhanceBuild_url, hb]
          rw [hfe]
          have hfin : List.filter (fun b => b.url == some w) (b :: rest)
              = b :: List.filter (fun b => b.url == some w) rest := by
            simp [List.filter_cons, hmatch]
          rw [hfin]
          simp [List.append_assoc]
        | true =>
          have hcondf : (w != "" && !seen.contains w) = false := by
            rw [hseen]
            simp
          rw [show dedupStep (seen, acc) b = (seen, acc) by
              unfold dedupStep
              rw [hb]
              show (if (w != "" && !seen.contains w) = true
                  then (seen ++ [w], acc ++ [enhanceBuild b]) else (seen, acc))
                = (seen, acc)
              rw [hcondf]
              rfl]
          rw [ih seen acc, hseen]
          rfl
      · have hnomatch : (b.url == some u) = false := by
          rw [hb]
          cases hx : (some w == some u)
          · rfl
          · exact absurd (by simpa using hx) hwu
        have hfin : List.filter (fun b => b.url == some u) (b :: rest)
            = List.filter (fun b => b.url == some u) rest := by
          simp [List.filter_cons, hnomatch]
        rw [hfin]
        cases hstep : dedupStep (seen, acc) b with
        | mk seen2 acc2 =>
          have hcases : (seen2 = seen ++ [w] ∧ acc2 = acc ++ [enhanceBuild b])
              ∨ (seen2 = seen ∧ acc2 = acc) := by
            unfold dedupStep at hstep
            rw [hb] at hstep
            have hstep2 : (if (w != "" && !seen.contains w) = true
                then (seen ++ [w], acc ++ [enhanceBuild b]) else (seen, acc))
                = (seen2, acc2) := hstep
            by_cases hc : (w != "" && !seen.contains w) = true
            · rw [if_pos hc] at hstep2
              left
              have h1 := congrArg Prod.fst hstep2
              have h2 := congrArg Prod.snd hstep2
              simp at h1 h2
              exact ⟨h1.symm, h2.symm⟩
            · rw [if_neg hc] at hstep2
              right
              have h1 := congrArg Prod.fst hstep2
              have h2 := congrArg Prod.snd hstep2
              simp at h1 h2
              exact ⟨h1.symm, h2.symm⟩
          rcases hcases with ⟨hs2, ha2⟩ | ⟨hs2, ha2⟩
          · subst hs2; subst ha2
            rw [ih]
            have hacc : List.filter (fun b => b.url == some u) (acc ++ [enhanceBuild b])
                = List.filter (fun b => b.url == some u) acc := by
              rw [List.filter_append]
              simp [List.filter_cons, enhanceBuild_url, hnomatch]
            rw [hacc]
            have hcont : (seen ++ [w]).contains u = seen.contains u := by
              show List.elem u (seen ++ [w]) = List.elem u seen
              rw [elem_append_single]
              have : (u == w) = false := by
                cases hx : u == w
                · rfl
                · exact absurd (by simpa using hx) (fun h : u = w => hwu h.symm)
              rw [this, Bool.or_false]
            rw [hcont]
          · subst hs2; subst ha2
            exact ih _ _

/-- Every retained running build carries a non-empty URL. -/
theorem dedup_mem (bs : List Build) :
    ∀ (seen : List String) (acc : List Build),
    (∀ b ∈ acc, ∃ u, b.url = some u ∧ u ≠ "") →
    ∀ b ∈ (bs.foldl dedupStep (seen, acc)).2, ∃ u, b.url = some u ∧ u ≠ "" := by
  induction bs with
  | nil => intro seen acc hacc b hb; exact hacc b hb
  | cons b0 rest ih =>
    intro seen acc hacc b hb
    rw [List.foldl_cons] at hb
    cases hst : dedupStep (seen, acc) b0 with
    | mk seen2 acc2 =>
      rw [hst] at hb
      refine ih seen2 acc2 ?_ b hb
      intro b2 hb2
      unfold dedupStep at hst
      cases hu0 : b0.url with
      | none =>
        rw [hu0] at hst
        have hst2 : ((seen, acc) : List String × List Build) = (seen2, acc2) := hst
        cases hst2
        exact hacc b2 hb2
      | some w =>
        rw [hu0] at hst
        have hst2 : (if (w != "" && !seen.contains w) = true
            then (seen ++ [w], acc ++ [enhanceBuild b0]) else (seen, acc))
            = (seen2, acc2) := hst
        by_cases hc : (w != "" && !seen.contains w) = true
        · rw [if_pos hc] at hst2
          cases hst2
          rcases List.mem_append.mp hb2 with h2 | h2
          · exact hacc b2 h2
          · have hb2e : b2 = enhanceBuild b0 := by simpa using h2
            subst hb2e
            refine ⟨w, ?_, ?_⟩
            · rw [enhanceBuild_url, hu0]
            · intro hw
              rw [Bool.and_eq_true] at hc
              have := hc.1
              rw [hw] at this
              simp [bne] at this
        · rw [if_neg hc] at hst2
          cases hst2
          exact hacc b2 hb2

/-- C4 (counterexample): a single node whose one executor runs a build with
no `url`.  The claim demands that a record lacking a URL is always
retained, but the walk sees one build and the output is empty: such
records are dropped by the `if build_url` guard. -/
theorem c4_counterexample :
    getRunningBuilds (.ok (some
      [{ executors := some [{ currentExecutable := some ({} : Build) }] }])) = []
    ∧ walkBuilds
        [{ executors := some [{ currentExecutable := some ({} : Build) }] }]
      = [({} : Build)]
    ∧ ({} : Build).url = none := by
  refine ⟨rfl, ?_, rfl⟩
  simp [walkBuilds, List.filterMap_cons]

/-- C4 (amended): in the running-builds collection, for every non-empty url
at most one record with that url appears — the first one encountered in the
walk (as enhanced in place) — and every record lacking a url (or with an
empty url) is dropped, never retained. -/
theorem c4_amended (nodes : List Node) :
    (∀ u : String, u ≠ "" →
      (getRunningBuilds (.ok (some nodes))).filter (fun b => b.url == some u)
        = (((walkBuilds nodes).filter (fun b => b.url == some u)).take 1).map
            enhanceBuild)
    ∧ (∀ b ∈ getRunningBuilds (.ok (some nodes)), ∃ u, b.url = some u ∧ u ≠ "") := by
  have hB : getRunningBuilds (.ok (some nodes))
      = ((walkBuilds nodes).foldl dedupStep ([], [])).2 := by
    show (nodes.foldl processNode ([], [])).2 = _
    rw [foldl_processNode_eq]
  constructor
  · intro u hu
    rw [hB, dedup_filter u hu (walkBuilds nodes) [] []]
    simp [List.contains]
  · rw [hB]
    exact dedup_mem (walkBuilds nodes) [] [] (by intro b hb; simp at hb)

/-- C4 witness: two executors running the same build URL collapse to one
record — the first encountered. -/
theorem c4_amended_witness :
    ("u1" : String) ≠ ""
    ∧ (getRunningBuilds (.ok (some
        [{ executors := some [
            { currentExecutable := some { url := some "u1", id := some "a" } },
            { currentExecutable := some { url := some "u1", id := some "b" } }] }]))).filter
        (fun b => b.url == some "u1")
      = (((walkBuilds
        [{ executors := some [
            { currentExecutable := some { url := some "u1", id := some "a" } },
            { currentExecutable := some { url := some "u1", id := some "b" } }] }]).filter
          (fun b => b.url == some "u1")).take 1).map enhanceBuild := by
  refine ⟨by decide, ?_⟩
  exact (c4_amended
    [{ executors := some [
        { currentExecutable := some { url := some "u1", id := some "a" } },
        { currentExecutable := some { url := some "u1", id := some "b" } }] }]).1
    "u1" (by decide)

end JD
